import Mathlib

/-!
# Titan Text Premier demonstration programs: `basic`, `doc-chat`, `rag`

A shallow embedding of the three Go programs of the repository.  Every call
that leaves the process (environment lookup, HTTP, the HTML loader, the vector
store, the retriever and the hosted model) is a field of a world record, so the
theorems hold for every behaviour of those collaborators.  A program run is a
trace of observable events together with the way the run ended.  The two
never-ending query loops take a bound on the number of turns; a run that
reaches the bound is reported as still running.

Every program is its `init` followed by its `main` (`program`).  The
orchestration library the programs call (prompt templates, prompt selector,
chains, text splitter) is not part of the repository sources.  Where a statement
depends on what the templates, the selector or the chains do, they are modelled
from the specification and marked so; the text splitter is transcribed from the
library, because the specification's description of it does not agree with it.

Go strings are modelled as Lean strings (sequences of code points).
-/

set_option maxRecDepth 100000

namespace Titan

/-! ## Go runtime pieces -/

/-- Go errors are carried by their message. -/
abbrev Error := String

/-- Go `unicode.IsSpace`: the Latin-1 spaces `\t \n \v \f \r`, space, U+0085 and
U+00A0, and the code points of category Z
beyond Latin-1 (property White_Space). -/
def isSpace (c : Char) : Bool :=
  let n := c.toNat
  (decide (9 ≤ n) && decide (n ≤ 13)) || n == 32 || n == 0x85 || n == 0xA0
    || n == 0x1680 || (decide (0x2000 ≤ n) && decide (n ≤ 0x200A))
    || n == 0x2028 || n == 0x2029 || n == 0x202F || n == 0x205F || n == 0x3000

/-- Leading white space removed (`strings.TrimLeftFunc(s, unicode.IsSpace)`). -/
def TrimLeft (l : List Char) : List Char :=
  l.dropWhile isSpace

/-- Trailing white space removed (`strings.TrimRightFunc(s, unicode.IsSpace)`). -/
def TrimRight (l : List Char) : List Char :=
  (l.reverse.dropWhile isSpace).reverse

/-- Go `strings.TrimSpace`: the string with all leading and trailing white
space removed. -/
def TrimSpace (s : String) : String :=
  ⟨TrimRight (TrimLeft s.data)⟩

/-- Go `bufio.Reader.ReadString(delim)` on the unread input: the data up to and
including the first delimiter; when the input ends before a delimiter, the data
read so far together with the end-of-input error.  Returns the data, whether
the error was `io.EOF`, and the input left unread. -/
def ReadString (delim : Char) (input : List Char) : String × Bool × List Char :=
  match input.span (fun c => c != delim) with
  | (pre, d :: rest) => (⟨pre ++ [d]⟩, false, rest)
  | (pre, []) => (⟨pre⟩, true, [])

/-- Go `fmt.Println`: operands separated by one space, newline appended. -/
def Println (args : List String) : String :=
  " ".intercalate args ++ "\n"

/-- The process environment: the value of a variable, when it is set. -/
abbrev Environ := String → Option String

/-- Go `os.Getenv`: the value of the variable, empty when it is not present. -/
def Getenv (env : Environ) (key : String) : String :=
  (env key).getD ""

/-- Go `strings.Join(elems, sep)`. -/
def Join : List (List Char) → List Char → List Char
  | [], _ => []
  | [a], _ => a
  | a :: b :: rest, sep => a ++ sep ++ Join (b :: rest) sep

/-- Go `strings.Contains(text, sep)`. -/
def Contains : List Char → List Char → Bool
  | [], sep => sep.isEmpty
  | c :: cs, sep => sep.isPrefixOf (c :: cs) || Contains cs sep

/-- The pieces of a text between the occurrences of a non-empty separator,
found left to right.  `skip` counts the characters of a separator just found
that are still to be passed over; `piece` is the current piece, newest character
first. -/
def splitAfter (sep : List Char) : List Char → Nat → List Char → List (List Char)
  | [], _, piece => [piece.reverse]
  | _ :: cs, skip + 1, piece => splitAfter sep cs skip piece
  | c :: cs, 0, piece =>
    if sep.isPrefixOf (c :: cs) then piece.reverse :: splitAfter sep cs (sep.length - 1) []
    else splitAfter sep cs 0 (c :: piece)

/-- Go `strings.Split(text, sep)`: with the empty separator the text is split
after every code point (no piece for the empty text); otherwise it is cut at
every occurrence of the separator (one empty piece for the empty text). -/
def Split (text sep : List Char) : List (List Char) :=
  if sep.isEmpty then text.map fun c => [c] else splitAfter sep text 0 []

/-! ## Data carried between the collaborators -/

/-- A langchaingo `schema.Document`, reduced to its text. -/
structure Document where
  PageContent : String
  deriving DecidableEq, Repr

/-- The part of a Go `http.Response` the programs can see. -/
structure Response where
  StatusCode : Nat
  Body : String
  deriving DecidableEq, Repr

/-- A generation request: the prompt text and the `llms.WithMaxTokens` bound. -/
structure GenRequest where
  prompt : String
  MaxTokens : Nat
  deriving DecidableEq, Repr

/-- One candidate of a generation response (`llms.ContentChoice`). -/
structure ContentChoice where
  Content : String
  deriving DecidableEq, Repr

/-- A generation response (`llms.ContentResponse`). -/
structure ContentResponse where
  Choices : List ContentChoice
  deriving DecidableEq, Repr

/-- Observable steps of a run. -/
inductive Event where
  | stdout (text : String)
  | loadConfig (region : String)
  | httpGet (url : String)
  | loadHTML (body : String)
  | addDocuments (docs : List Document)
  | readString (data : String) (eof : Bool)
  | retrieve (query : String) (k : Nat)
  | assemble (bindings : List (String × String))
  | generate (req : GenRequest)
  | fatal (msg : Error)
  | indexOutOfRange
  deriving DecidableEq, Repr

/-- How a run ended: `log.Fatal`, a return from `main`, a runtime fault, or
still looping when the bound on turns was reached. -/
inductive Status where
  | fatal
  | exited
  | crashed
  | running
  deriving DecidableEq, Repr

/-- A run: its events in order and its end. -/
structure Run where
  trace : List Event
  status : Status
  deriving DecidableEq, Repr

/-! ## Program `basic` -/

namespace Basic

def defaultRegion : String := "us-east-1"
def maxTokenCountLimitForTitanTextPremier : Nat := 3072
def modelID : String := "amazon.titan-text-premier-v1:0"

/-- The collaborators of `basic`. -/
structure World where
  env : Environ
  /-- The call `config.LoadDefaultConfig(ctx, config.WithRegion(region))`. -/
  LoadDefaultConfig : String → Except Error Unit
  /-- The call `bedrock.New(bedrock.WithClient(client), bedrock.WithModel(id))`. -/
  New : String → Except Error Unit
  /-- The call `llm.GenerateContent(ctx, msg, llms.WithMaxTokens(n))`. -/
  GenerateContent : GenRequest → Except Error ContentResponse

/-- The region `init` passes to `config.WithRegion`. -/
def region (env : Environ) : String :=
  let region := Getenv env "AWS_REGION"
  if region = "" then defaultRegion else region

/-- Function `init`: resolve the region and load the configuration with it;
`log.Fatal` on its error. -/
def init (w : World) : List Event × Except Error String :=
  match w.LoadDefaultConfig (region w.env) with
  | .error err => ([.loadConfig (region w.env), .fatal err], .error err)
  | .ok _ => ([.loadConfig (region w.env)], .ok (region w.env))

/-- The single human message and the call options `main` sends. -/
def request : GenRequest :=
  { prompt := "Explain AI in 100 words or less."
    MaxTokens := maxTokenCountLimitForTitanTextPremier }

/-- Function `main`. -/
def main (w : World) : Run :=
  match w.New modelID with
  | .error err => ⟨[.fatal err], .fatal⟩
  | .ok _ =>
    match w.GenerateContent request with
    | .error err => ⟨[.generate request, .fatal err], .fatal⟩
    | .ok resp =>
      match resp.Choices with
      | [] => ⟨[.generate request, .indexOutOfRange], .crashed⟩
      | c :: _ => ⟨[.generate request, .stdout (Println ["response:\n", c.Content])], .exited⟩

/-- The whole program: `init`, then `main`. -/
def program (w : World) : Run :=
  match init w with
  | (evs, .error _) => ⟨evs, .fatal⟩
  | (evs, .ok _) => ⟨evs ++ (main w).trace, (main w).status⟩

end Basic

/-! ## Orchestration library: prompt templates, selector, chunker, chains -/

/-- A model handle (`*bedrock_llm.LLM`), known by its model id. -/
structure LLM where
  ModelID : String
  deriving DecidableEq, Repr

/-- A prompt template with its declared input variables
(`prompts.PromptTemplate`). -/
structure PromptTemplate where
  Template : String
  InputVariables : List String
  deriving DecidableEq, Repr

/-- The constructor `prompts.NewPromptTemplate(template, inputVars)`. -/
def NewPromptTemplate (template : String) (inputVars : List String) : PromptTemplate :=
  { Template := template, InputVariables := inputVars }

/-- Modelled from the spec: a piece of a template, literal text or a named
placeholder (the Prompt Assembler is library code outside the repository
sources). -/
inductive Segment where
  | text (s : String)
  | slot (name : String)
  deriving DecidableEq, Repr

/-- Modelled from the spec: where the template reader stands, in literal text, after one opening
brace, inside a placeholder, or after one closing brace inside a placeholder.
The characters gathered so far are kept newest first. -/
inductive ScanState where
  | text (acc : List Char)
  | opening (acc : List Char)
  | slot (name : List Char)
  | closing (name : List Char)
  deriving DecidableEq, Repr

/-- Modelled from the spec: the name written in a placeholder; surrounding blanks and the leading dot
of a field reference are dropped, so `\x7b\x7b.question\x7d\x7d` and
`\x7b\x7bquestion\x7d\x7d` both name `question`. -/
def slotName (body : List Char) : String :=
  match TrimRight (TrimLeft body) with
  | '.' :: name => ⟨name⟩
  | name => ⟨name⟩

/-- Modelled from the spec: the template reader of the Prompt Assembler, which
is library code outside the repository sources.  A named placeholder is a name
between a doubled opening and a doubled closing brace; everything else is
literal text. -/
def scanTemplate : List Char → ScanState → List Segment
  | [], .text acc => [.text ⟨acc.reverse⟩]
  | [], .opening acc => [.text ⟨('{' :: acc).reverse⟩]
  | [], .slot name => [.text ⟨'{' :: '{' :: name.reverse⟩]
  | [], .closing name => [.text ⟨'{' :: '{' :: ('}' :: name).reverse⟩]
  | c :: cs, .text acc =>
    if c = '{' then scanTemplate cs (.opening acc) else scanTemplate cs (.text (c :: acc))
  | c :: cs, .opening acc =>
    if c = '{' then .text ⟨acc.reverse⟩ :: scanTemplate cs (.slot [])
    else scanTemplate cs (.text (c :: '{' :: acc))
  | c :: cs, .slot name =>
    if c = '}' then scanTemplate cs (.closing name) else scanTemplate cs (.slot (c :: name))
  | c :: cs, .closing name =>
    if c = '}' then .slot (slotName name.reverse) :: scanTemplate cs (.text [])
    else scanTemplate cs (.slot (c :: '}' :: name))

/-- Modelled from the spec: the segments of a template text. -/
def parseTemplate (template : String) : List Segment :=
  scanTemplate template.data (.text [])

/-- Modelled from the spec: the named placeholders occurring in a template
text, in order. -/
def placeholders (template : String) : List String :=
  (parseTemplate template).filterMap fun seg =>
    match seg with
    | .slot name => some name
    | .text _ => none

/-- Modelled from the spec: the failure of the Prompt Assembler. -/
inductive AssembleError where
  | MissingBinding (name : String)
  deriving DecidableEq, Repr

/-- Modelled from the spec: the value bound to a name, when there is one. -/
def binding (bindings : List (String × String)) (name : String) : Option String :=
  (bindings.find? fun b => b.1 == name).map Prod.snd

/-- Modelled from the spec: substitution over the segments of a template. -/
def render (bindings : List (String × String)) : List Segment → Except AssembleError String
  | [] => .ok ""
  | .text s :: rest =>
    match render bindings rest with
    | .error err => .error err
    | .ok out => .ok (s ++ out)
  | .slot name :: rest =>
    match binding bindings name with
    | none => .error (.MissingBinding name)
    | some value =>
      match render bindings rest with
      | .error err => .error err
      | .ok out => .ok (value ++ out)

/-- Modelled from the spec: the Prompt Assembler `assemble(template, bindings)`,
library code outside the repository sources.  Deterministic string
substitution: every named placeholder must have a matching binding, else the
call fails with `MissingBinding(name)`; unused bindings are ignored. -/
def assemble (template : String) (bindings : List (String × String)) :
    Except AssembleError String :=
  render bindings (parseTemplate template)

/-- One conditional entry of a prompt selector: a test on the model handle
and the prompt to use when it holds. -/
structure Conditional where
  Condition : LLM → Bool
  Prompt : PromptTemplate

/-- The conditional prompt selector (`chains.ConditionalPromptSelector`); a
field left out of the composite literal has Go's zero value, the empty list. -/
structure ConditionalPromptSelector where
  DefaultPrompt : PromptTemplate
  Conditionals : List Conditional := []

/-- Modelled from the spec: `GetPrompt` of the conditional prompt selector,
library code outside the repository sources.  The selector defaults to one
template: the prompt of the first conditional entry whose condition accepts the
model is selected, and the default prompt when there is none. -/
def ConditionalPromptSelector.GetPrompt (s : ConditionalPromptSelector) (llm : LLM) :
    PromptTemplate :=
  match s.Conditionals.find? fun c => c.Condition llm with
  | some c => c.Prompt
  | none => s.DefaultPrompt

/-! ### The recursive character splitter

Transcribed from the library (`textsplitter.RecursiveCharacter`, with
`mergeSplits`, `joinDocs` and `shouldPop`), which rag calls through
`LoadAndSplit` and whose code is not among the repository sources.  Lengths are
counted in code points; separators are not kept (the default); the warning
`mergeSplits` logs for an oversized chunk is left out. -/

/-- Library function `joinDocs`: the pieces joined by the separator, trimmed of
leading and trailing white space. -/
def joinDocs (docs : List (List Char)) (separator : List Char) : List Char :=
  TrimRight (TrimLeft (Join docs separator))

/-- Library function `shouldPop`: whether the oldest piece of the current chunk
is to be dropped before the next piece is added. -/
def shouldPop (chunkOverlap chunkSize total splitLen separatorLen : Int)
    (currentDocLen : Nat) : Bool :=
  let separatorLen := if currentDocLen < 2 then 0 else separatorLen
  decide (currentDocLen > 0) &&
    (decide (total > chunkOverlap)
      || (decide (total + splitLen + separatorLen > chunkSize) && decide (total > 0)))

/-- The loop `for shouldPop(...)` of `mergeSplits`: pieces are dropped from the
front of the current chunk, and their length taken off the total, while
`shouldPop` says so. -/
def popDocs (chunkOverlap chunkSize splitLen separatorLen : Int) :
    List (List Char) → Int → List (List Char) × Int
  | [], total => ([], total)
  | d :: ds, total =>
    if shouldPop chunkOverlap chunkSize total splitLen separatorLen (d :: ds).length then
      popDocs chunkOverlap chunkSize splitLen separatorLen ds
        (total - d.length - (if (d :: ds).length > 1 then separatorLen else 0))
    else (d :: ds, total)

/-- The loop over the splits of `mergeSplits`, with its state: the chunks made
so far, the pieces of the current chunk and their total length. -/
def mergeLoop (separator : List Char) (chunkSize chunkOverlap : Int) :
    List (List Char) → List (List Char) → List (List Char) → Int → List (List Char)
  | [], docs, currentDoc, _ =>
    let doc := joinDocs currentDoc separator
    if doc ≠ [] then docs ++ [doc] else docs
  | split :: rest, docs, currentDoc, total =>
    let totalWithSplit : Int :=
      total + split.length + (if currentDoc.length ≠ 0 then (separator.length : Int) else 0)
    if totalWithSplit > chunkSize ∧ currentDoc.length > 0 then
      let doc := joinDocs currentDoc separator
      let docs := if doc ≠ [] then docs ++ [doc] else docs
      let popped := popDocs chunkOverlap chunkSize split.length separator.length currentDoc total
      let currentDoc := popped.1 ++ [split]
      let total := popped.2 + split.length
        + (if currentDoc.length > 1 then (separator.length : Int) else 0)
      mergeLoop separator chunkSize chunkOverlap rest docs currentDoc total
    else
      let currentDoc := currentDoc ++ [split]
      let total := total + split.length
        + (if currentDoc.length > 1 then (separator.length : Int) else 0)
      mergeLoop separator chunkSize chunkOverlap rest docs currentDoc total

/-- Library function `mergeSplits`: small splits merged into chunks close to
the chunk size; a chunk that is empty after trimming is left out. -/
def mergeSplits (splits : List (List Char)) (separator : List Char)
    (chunkSize chunkOverlap : Nat) : List (List Char) :=
  mergeLoop separator chunkSize chunkOverlap splits [] [] 0

/-- The loop over the splits of `splitText`, with its state `finalChunks` and
`goodSplits`: a split shorter than the chunk size is kept for merging; a longer
one is emitted as it is when no separator is left (`last`), and split further
(`deeper`) otherwise. -/
def splitLoop (chunkSize chunkOverlap : Nat) (separator : List Char) (last : Bool)
    (deeper : List Char → List (List Char)) :
    List (List Char) → List (List Char) → List (List Char) → List (List Char)
  | [], finalChunks, goodSplits =>
    if goodSplits.length > 0 then
      finalChunks ++ mergeSplits goodSplits separator chunkSize chunkOverlap
    else finalChunks
  | split :: rest, finalChunks, goodSplits =>
    if split.length < chunkSize then
      splitLoop chunkSize chunkOverlap separator last deeper rest finalChunks (goodSplits ++ [split])
    else
      let finalChunks :=
        if goodSplits.length > 0 then
          finalChunks ++ mergeSplits goodSplits separator chunkSize chunkOverlap
        else finalChunks
      let finalChunks := if last then finalChunks ++ [split] else finalChunks ++ deeper split
      splitLoop chunkSize chunkOverlap separator last deeper rest finalChunks []

/-- Library method `splitText(text, separators)`: the first separator that is
empty or occurs in the text is used (the last one when none does), the text is
split on it, and splits that are too long are split on the separators after
it.  The library never calls it with an empty separator list. -/
def splitText (chunkSize chunkOverlap : Nat) : List (List Char) → List Char → List (List Char)
  | [], _ => []
  | c :: newSeparators, text =>
    if c.isEmpty || Contains text c || newSeparators.isEmpty then
      splitLoop chunkSize chunkOverlap c newSeparators.isEmpty
        (splitText chunkSize chunkOverlap newSeparators) (Split text c) [] []
    else splitText chunkSize chunkOverlap newSeparators text

/-- The separators of `textsplitter.NewRecursiveCharacter()`: blank line, line
break, space, and the empty separator. -/
def defaultSeparators : List (List Char) :=
  [['\n', '\n'], ['\n'], [' '], []]

/-- Library method `SplitText(text)` of the recursive character splitter: the
chunker of the rag load phase. -/
def SplitText (chunkSize chunkOverlap : Nat) (text : String) : List String :=
  (splitText chunkSize chunkOverlap defaultSeparators text.data).map String.mk

/-- Library function `textsplitter.SplitDocuments` (the second half of
`LoadAndSplit`): every chunk of every document becomes a document, in order. -/
def SplitDocuments (chunkSize chunkOverlap : Nat) (docs : List Document) : List Document :=
  docs.flatMap fun d => (SplitText chunkSize chunkOverlap d.PageContent).map Document.mk

/-- The chain that renders the prompt and calls the model (`chains.LLMChain`). -/
structure LLMChain where
  LLM : LLM
  Prompt : PromptTemplate
  deriving DecidableEq, Repr

/-- The constructor `chains.NewLLMChain(llm, prompt)`. -/
def NewLLMChain (llm : LLM) (prompt : PromptTemplate) : LLMChain :=
  { LLM := llm, Prompt := prompt }

/-- The chain that stuffs documents into the `context` slot
(`chains.StuffDocuments`). -/
structure StuffDocuments where
  LLMChain : LLMChain
  deriving DecidableEq, Repr

/-- The constructor `chains.NewStuffDocuments(llmChain)`. -/
def NewStuffDocuments (llmChain : LLMChain) : StuffDocuments :=
  { LLMChain := llmChain }

/-- A retriever over the vector store returning at most `NumDocuments` chunks
(`vectorstores.ToRetriever(store, numDocuments)`). -/
structure Retriever where
  NumDocuments : Nat
  deriving DecidableEq, Repr

/-- The retrieval question-answering chain (`chains.RetrievalQA`). -/
structure RetrievalQA where
  CombineDocumentsChain : StuffDocuments
  Retriever : Retriever
  deriving DecidableEq, Repr

/-- The constructor `chains.NewRetrievalQA(combineDocumentsChain, retriever)`. -/
def NewRetrievalQA (combine : StuffDocuments) (retriever : Retriever) : RetrievalQA :=
  { CombineDocumentsChain := combine, Retriever := retriever }

/-- The collaborators of `rag` and `doc-chat`.  The retriever and the model are
asked once per turn and may answer differently on every turn. -/
structure World where
  env : Environ
  /-- The call `config.LoadDefaultConfig(ctx)` of `init`. -/
  LoadDefaultConfig : Except Error Unit
  /-- The call `bedrock.NewBedrock(...)` of `init` in rag (the embedder). -/
  NewBedrock : Except Error Unit
  /-- The call `pgx.Connect(ctx, url)` of `init` in rag. -/
  Connect : String → Except Error Unit
  /-- The call `pgvector.New(...)` of `init` in rag. -/
  NewStore : Except Error Unit
  /-- The call `bedrock_llm.New(...)` of `init`, by model id. -/
  NewLLM : String → Except Error Unit
  /-- The handle `llm` that call leaves in the package variable. -/
  llm : LLM
  /-- The call `http.Get(url)`: an error, or a response of any status. -/
  Get : String → Except Error Response
  /-- The call `documentloaders.NewHTML(body).Load(ctx)`. -/
  Load : String → Except Error (List Document)
  /-- The chunk size and overlap of `textsplitter.NewRecursiveCharacter()`. -/
  ChunkSize : Nat
  ChunkOverlap : Nat
  /-- The vector store as the program finds it. -/
  store : List Document
  /-- Whether `store.AddDocuments(ctx, docs)` fails. -/
  AddDocuments : List Document → Except Error Unit
  /-- The delimiter between chunk texts in the `context` slot. -/
  Separator : String
  /-- The retriever on turn `n`: store contents, query, number of results. -/
  Retrieve : Nat → List Document → String → Nat → Except Error (List Document)
  /-- The generation client on turn `n`. -/
  Generate : Nat → GenRequest → Except Error String

/-- Modelled from the spec: a call of the document-stuffing chain, library code
outside the repository sources.  The Prompt Assembler is called with the
`context` slot bound to the concatenation of the chunk texts in order and the
`question` slot bound to the question, then the Generation Client with the
assembled prompt and the token bound; an error of either is returned. -/
def StuffDocuments.Call (c : StuffDocuments) (w : World) (turn : Nat) (docs : List Document)
    (question : String) (maxTokens : Nat) : List Event × Except Error String :=
  let context := w.Separator.intercalate (docs.map Document.PageContent)
  let bindings := [("context", context), ("question", question)]
  match assemble c.LLMChain.Prompt.Template bindings with
  | .error (.MissingBinding name) =>
    ([.assemble bindings], .error ("missing binding: " ++ name))
  | .ok prompt =>
    let req : GenRequest := { prompt := prompt, MaxTokens := maxTokens }
    ([.assemble bindings, .generate req], w.Generate turn req)

/-- Modelled from the spec: a run of the retrieval chain, library code outside
the repository sources.  The Retriever is called with the question, then the
document-stuffing chain with the retrieved chunks; errors are propagated
unchanged. -/
def RetrievalQA.Run (c : RetrievalQA) (w : World) (turn : Nat) (store : List Document)
    (question : String) (maxTokens : Nat) : List Event × Except Error String :=
  match w.Retrieve turn store question c.Retriever.NumDocuments with
  | .error err => ([.retrieve question c.Retriever.NumDocuments], .error err)
  | .ok docs =>
    let r := c.CombineDocumentsChain.Call w turn docs question maxTokens
    (.retrieve question c.Retriever.NumDocuments :: r.1, r.2)

/-! ## Program `rag` -/

namespace Rag

def modelID : String := "amazon.titan-text-premier-v1:0"
def maxTokenCountLimitForTitanTextPremier : Nat := 3072
def defaultSourceURL : String :=
  "https://docs.aws.amazon.com/bedrock/latest/userguide/br-studio.html"

/-- The connection URL built in `init` (`url.QueryEscape` leaves the password,
which is made of letters, as it is). -/
def pgConnURL : String :=
  "postgres://" ++ "postgres" ++ ":" ++ "postgres" ++ "@" ++ "localhost" ++ ":5432/"
    ++ "postgres" ++ "?sslmode=disable"

/-- Function `init`: configuration, embedder, database connection, vector
store and model, each ending the process with `log.Fatal` on its error. -/
def init (w : World) : List Event × Except Error Unit :=
  match w.LoadDefaultConfig with
  | .error err => ([.fatal err], .error err)
  | .ok _ =>
    match w.NewBedrock with
    | .error err => ([.fatal err], .error err)
    | .ok _ =>
      match w.Connect pgConnURL with
      | .error err => ([.fatal err], .error err)
      | .ok _ =>
        match w.NewStore with
        | .error err => ([.fatal err], .error err)
        | .ok _ =>
          match w.NewLLM modelID with
          | .error err => ([.stdout (Println ["vector store ready"]), .fatal err], .error err)
          | .ok _ => ([.stdout (Println ["vector store ready"])], .ok ())

/-- The prompt based on the knowledge base. -/
def ragPromptTemplateString : String :=
  "\n" ++
  "A chat between a curious User and an artificial intelligence Bot. The Bot gives helpful, detailed, and polite answers to the User\x27s questions.\n" ++
  "\n" ++
  "In this session, the model has access to search results and a user\x27s question, your job is to answer the user\x27s question using only information from the search results.\n" ++
  "\n" ++
  "Model Instructions:\n" ++
  "- You should provide concise answer to simple questions when the answer is directly contained in search results, but when comes to yes/no question, provide some details.\n" ++
  "- In case the question requires multi-hop reasoning, you should find relevant information from search results and summarize the answer based on relevant information with logical reasoning.\n" ++
  "- If the search results do not contain information that can answer the question, please state that you could not find an exact answer to the question, and if search results are completely irrelevant, say that you could not find an exact answer, then summarize search results.\n" ++
  "- DO NOT USE INFORMATION THAT IS NOT IN SEARCH RESULTS!\n" ++
  "\n" ++
  "User: \x7b\x7b.question\x7d\x7d\n" ++
  "Resource: Search Results: \x7b\x7b.context\x7d\x7d Bot:"

/-- The local `ragPromptTemplate` of `retrievalQAChainWithCustomPrompt`. -/
def ragPromptTemplate : PromptTemplate :=
  NewPromptTemplate ragPromptTemplateString ["context", "question"]

/-- The local `qaPromptSelector` of `retrievalQAChainWithCustomPrompt`: only
the default prompt is set. -/
def qaPromptSelector : ConditionalPromptSelector :=
  { DefaultPrompt := ragPromptTemplate }

/-- Function `retrievalQAChainWithCustomPrompt`. -/
def retrievalQAChainWithCustomPrompt (llm : LLM) (retriever : Retriever) : RetrievalQA :=
  let prompt := qaPromptSelector.GetPrompt llm
  let llmChain := NewLLMChain llm prompt
  let stuffDocsChain := NewStuffDocuments llmChain
  NewRetrievalQA stuffDocsChain retriever

/-- Function `getDocs`: fetch the source, then load and split the body.  The
error of `http.Get` or of the loader is returned; the status of the response is
not looked at. -/
def getDocs (w : World) (source : String) : List Event × Except Error (List Document) :=
  match w.Get source with
  | .error err => ([.httpGet source], .error err)
  | .ok resp =>
    match w.Load resp.Body with
    | .error err => ([.httpGet source, .loadHTML resp.Body], .error err)
    | .ok docs =>
      ([.httpGet source, .loadHTML resp.Body], .ok (SplitDocuments w.ChunkSize w.ChunkOverlap docs))

/-- The source URL `load` fetches. -/
def source (env : Environ) : String :=
  let source := Getenv env "SOURCE_URL"
  if source = "" then defaultSourceURL else source

/-- Function `load`: the events, and the store contents after the load when it
succeeded (`none` after `log.Fatal`). -/
def load (w : World) : List Event × Option (List Document) :=
  let announce := Event.stdout (Println ["loading data from", source w.env])
  match getDocs w (source w.env) with
  | (evs, .error err) => (announce :: evs ++ [.fatal err], none)
  | (evs, .ok docs) =>
    let count := Event.stdout
      (Println ["no. of document chunks to be loaded", toString docs.length])
    match w.AddDocuments docs with
    | .error err => (announce :: evs ++ [count, .addDocuments docs, .fatal err], none)
    | .ok _ =>
      (announce :: evs ++ [count, .addDocuments docs,
          .stdout (Println ["data successfully loaded into vector store"])],
        some (w.store ++ docs))

def numOfResults : Nat := 5

/-- Function `query`: the `for` loop, run for at most `fuel` turns, starting
with turn number `turn` on the unread standard input. -/
def query (w : World) (store : List Document) : Nat → Nat → List Char → Run
  | 0, _, _ => ⟨[], .running⟩
  | fuel + 1, turn, stdin =>
    let (line, eof, rest) := ReadString '\n' stdin
    let question := TrimSpace line
    let ask := [Event.stdout "\nEnter your message: ", Event.readString line eof]
    match (retrievalQAChainWithCustomPrompt w.llm ⟨numOfResults⟩).Run w turn store question
        maxTokenCountLimitForTitanTextPremier with
    | (evs, .error err) => ⟨ask ++ evs ++ [.fatal err], .fatal⟩
    | (evs, .ok result) =>
      let next := query w store fuel (turn + 1) rest
      ⟨ask ++ evs ++ .stdout (Println ["[Model response]:", result]) :: next.trace, next.status⟩

/-- Function `main`: `load()`, then `query()`. -/
def main (w : World) (stdin : List Char) (fuel : Nat) : Run :=
  match load w with
  | (evs, none) => ⟨evs, .fatal⟩
  | (evs, some store) =>
    let r := query w store fuel 0 stdin
    ⟨evs ++ r.trace, r.status⟩

/-- The whole program: `init`, then `main`. -/
def program (w : World) (stdin : List Char) (fuel : Nat) : Run :=
  match init w with
  | (evs, .error _) => ⟨evs, .fatal⟩
  | (evs, .ok _) => ⟨evs ++ (main w stdin fuel).trace, (main w stdin fuel).status⟩

end Rag

/-! ## Program `doc-chat` -/

namespace DocChat

def modelID : String := "amazon.titan-text-premier-v1:0"
def maxTokenCountLimitForTitanTextPremier : Nat := 3072
def defaultSourceURL : String :=
  "https://docs.aws.amazon.com/bedrock/latest/userguide/model-ids.html"

/-- Function `init`: configuration and model, each ending the process with
`log.Fatal` on its error. -/
def init (w : World) : List Event × Except Error Unit :=
  match w.LoadDefaultConfig with
  | .error err => ([.fatal err], .error err)
  | .ok _ =>
    match w.NewLLM modelID with
    | .error err => ([.fatal err], .error err)
    | .ok _ => ([], .ok ())

def promptTemplateString : String :=
  "\x7b\x7b.context\x7d\x7d\nBased on the information above, \x7b\x7b.question\x7d\x7d"

/-- The local `ragPromptTemplate` of `docChainWithCustomPrompt`. -/
def ragPromptTemplate : PromptTemplate :=
  NewPromptTemplate promptTemplateString ["context", "question"]

/-- The local `qaPromptSelector` of `docChainWithCustomPrompt`: only the
default prompt is set. -/
def qaPromptSelector : ConditionalPromptSelector :=
  { DefaultPrompt := ragPromptTemplate }

/-- Function `docChainWithCustomPrompt`. -/
def docChainWithCustomPrompt (llm : LLM) : StuffDocuments :=
  let prompt := qaPromptSelector.GetPrompt llm
  let llmChain := NewLLMChain llm prompt
  NewStuffDocuments llmChain

/-- Function `getDocs`: fetch the link and load the body; `log.Fatal` on the
error of `http.Get` or of the loader (`none`).  The status of the response is
not looked at. -/
def getDocs (w : World) (link : String) : List Event × Option (List Document) :=
  match w.Get link with
  | .error err => ([.httpGet link, .fatal err], none)
  | .ok resp =>
    match w.Load resp.Body with
    | .error err => ([.httpGet link, .loadHTML resp.Body, .fatal err], none)
    | .ok docs =>
      ([.httpGet link, .loadHTML resp.Body, .stdout (Println ["loaded content from", link])],
        some docs)

/-- The link `main` fetches. -/
def link (env : Environ) : String :=
  let link := Getenv env "SOURCE_URL"
  if link = "" then defaultSourceURL else link

/-- The `for` loop of `main`, run for at most `fuel` turns, starting with turn
number `turn` on the unread standard input. -/
def loop (w : World) (docs : List Document) : Nat → Nat → List Char → Run
  | 0, _, _ => ⟨[], .running⟩
  | fuel + 1, turn, stdin =>
    let (line, eof, rest) := ReadString '\n' stdin
    let input := TrimSpace line
    let ask := [Event.stdout "\nEnter your message: ", Event.readString line eof]
    match (docChainWithCustomPrompt w.llm).Call w turn docs input
        maxTokenCountLimitForTitanTextPremier with
    | (evs, .error err) => ⟨ask ++ evs ++ [.fatal err], .fatal⟩
    | (evs, .ok answer) =>
      let next := loop w docs fuel (turn + 1) rest
      ⟨ask ++ evs ++ .stdout (Println ["[Response from model]:", answer]) :: next.trace,
        next.status⟩

/-- Function `main`. -/
def main (w : World) (stdin : List Char) (fuel : Nat) : Run :=
  match getDocs w (link w.env) with
  | (evs, none) => ⟨evs, .fatal⟩
  | (evs, some docs) =>
    let r := loop w docs fuel 0 stdin
    ⟨evs ++ r.trace, r.status⟩

/-- The whole program: `init`, then `main`. -/
def program (w : World) (stdin : List Char) (fuel : Nat) : Run :=
  match init w with
  | (evs, .error _) => ⟨evs, .fatal⟩
  | (evs, .ok _) => ⟨evs ++ (main w stdin fuel).trace, (main w stdin fuel).status⟩

end DocChat

/-! ## Vocabulary of the statements and example worlds -/

/-- The same world with the status of every response replaced. -/
def World.withStatus (w : World) (code : Nat) : World :=
  { w with
    Get := fun url =>
      match w.Get url with
      | .error err => .error err
      | .ok resp => .ok { resp with StatusCode := code } }

/-- The text bound to the `context` slot for a list of chunks. -/
def contextOf (w : World) (docs : List Document) : String :=
  w.Separator.intercalate (docs.map Document.PageContent)

/-- The prompt the Prompt Assembler renders from a template for a context and a
question (empty when a binding is missing). -/
def promptOf (template context question : String) : String :=
  match assemble template [("context", context), ("question", question)] with
  | .ok out => out
  | .error _ => ""

/-- Steps of the load phase: fetch, load and split, add to the store. -/
def Event.isLoadStep : Event → Bool
  | .httpGet _ => true
  | .loadHTML _ => true
  | .addDocuments _ => true
  | _ => false

/-- Steps of a query turn: read a line, retrieve, assemble, generate. -/
def Event.isQueryStep : Event → Bool
  | .readString _ _ => true
  | .retrieve _ _ => true
  | .assemble _ => true
  | .generate _ => true
  | _ => false

/-- The fetch of the source. -/
def Event.isFetch : Event → Bool
  | .httpGet _ => true
  | _ => false

/-- The addition of documents to the vector store. -/
def Event.isAdd : Event → Bool
  | .addDocuments _ => true
  | _ => false

/-- A world whose source answers `404 Not Found`, with a body the loader turns
into one document, an empty store that accepts additions, a retriever returning
the first stored chunks, and a model that always answers. -/
def notFoundWorld : World :=
  { env := fun _ => none
    LoadDefaultConfig := .ok ()
    NewBedrock := .ok ()
    Connect := fun _ => .ok ()
    NewStore := .ok ()
    NewLLM := fun _ => .ok ()
    llm := ⟨"amazon.titan-text-premier-v1:0"⟩
    Get := fun _ => .ok ⟨404, "Not Found"⟩
    Load := fun body => .ok [⟨body⟩]
    ChunkSize := 512
    ChunkOverlap := 100
    store := []
    AddDocuments := fun _ => .ok ()
    Separator := "\n\n"
    Retrieve := fun _ store _ k => .ok (store.take k)
    Generate := fun _ _ => .ok "answer" }

/-- A world whose source cannot be reached; the error names the URL, as Go
does. -/
def offlineWorld : World :=
  { notFoundWorld with Get := fun url => .error ("Get " ++ url ++ ": no route to host") }

/-- A world whose database refuses the connection. -/
def noDatabaseWorld : World :=
  { notFoundWorld with Connect := fun _ => .error "connection refused" }

/-- A world whose source answers with an empty page. -/
def emptyPageWorld : World :=
  { notFoundWorld with Get := fun _ => .ok ⟨200, ""⟩ }

/-- A world whose model refuses every request. -/
def throttledWorld : World :=
  { notFoundWorld with Generate := fun _ _ => .error "ThrottlingException" }

/-- A world whose retriever fails on every query. -/
def noRetrievalWorld : World :=
  { notFoundWorld with Retrieve := fun _ _ _ _ => .error "EmbeddingError" }

/-- A world for `basic` whose model answers with two candidates. -/
def twoCandidates : Basic.World :=
  { env := fun _ => none
    LoadDefaultConfig := fun _ => .ok ()
    New := fun _ => .ok ()
    GenerateContent := fun _ => .ok ⟨[⟨"first"⟩, ⟨"second"⟩]⟩ }

/-! ## Facts about the runtime pieces -/

theorem dropWhile_head_false (p : Char → Bool) :
    ∀ (l : List Char) (c : Char), (l.dropWhile p).head? = some c → p c = false
  | [], c, h => by simp at h
  | a :: l, c, h => by
    by_cases hp : p a = true
    · rw [List.dropWhile_cons_of_pos hp] at h
      exact dropWhile_head_false p l c h
    · rw [List.dropWhile_cons_of_neg hp] at h
      simp only [List.head?_cons, Option.some.injEq] at h
      subst h
      simpa using hp

theorem dropWhile_id_of_head (p : Char → Bool) (l : List Char)
    (h : ∀ c, l.head? = some c → p c = false) : l.dropWhile p = l := by
  cases l with
  | nil => rfl
  | cons a l =>
    have ha : ¬ p a = true := by simp [h a rfl]
    exact List.dropWhile_cons_of_neg ha

theorem takeWhile_all (p : Char → Bool) : ∀ (l : List Char) (c : Char), c ∈ l.takeWhile p → p c = true
  | [], c, h => by simp at h
  | a :: l, c, h => by
    by_cases hp : p a = true
    · rw [List.takeWhile_cons_of_pos hp] at h
      rcases List.mem_cons.mp h with rfl | h
      · exact hp
      · exact takeWhile_all p l c h
    · rw [List.takeWhile_cons_of_neg hp] at h
      simp at h

/-- Leading white space is all that `TrimLeft` removes. -/
theorem TrimLeft_split (l : List Char) :
    l = l.takeWhile isSpace ++ TrimLeft l := by
  simp [TrimLeft]

/-- Trailing white space is all that `TrimRight` removes. -/
theorem TrimRight_split (l : List Char) :
    l = TrimRight l ++ (l.reverse.takeWhile isSpace).reverse := by
  have h := List.takeWhile_append_dropWhile isSpace l.reverse
  have h2 := congrArg List.reverse h
  simp only [List.reverse_append, List.reverse_reverse] at h2
  simpa [TrimRight] using h2.symm

theorem TrimLeft_head (l : List Char) (c : Char) (h : (TrimLeft l).head? = some c) :
    isSpace c = false :=
  dropWhile_head_false isSpace l c h

theorem TrimRight_getLast (l : List Char) (c : Char) (h : (TrimRight l).getLast? = some c) :
    isSpace c = false := by
  apply dropWhile_head_false isSpace l.reverse c
  simpa [TrimRight, List.getLast?_reverse] using h

/-- The first character left by `TrimRight` is the first character it was
given. -/
theorem TrimRight_head (l : List Char) (c : Char) (h : (TrimRight l).head? = some c) :
    l.head? = some c := by
  have hs := TrimRight_split l
  cases hr : TrimRight l with
  | nil => rw [hr] at h; simp at h
  | cons a r =>
    rw [hr] at h hs
    rw [hs]
    simpa using h

theorem TrimSpace_data_head (s : String) (c : Char) (h : (TrimSpace s).data.head? = some c) :
    isSpace c = false :=
  TrimLeft_head s.data c (TrimRight_head _ c h)

theorem TrimSpace_data_getLast (s : String) (c : Char)
    (h : (TrimSpace s).data.getLast? = some c) : isSpace c = false :=
  TrimRight_getLast _ c h

/-- Trimming a trimmed string changes nothing. -/
theorem TrimSpace_idem (s : String) : TrimSpace (TrimSpace s) = TrimSpace s := by
  have h1 : TrimLeft (TrimSpace s).data = (TrimSpace s).data :=
    dropWhile_id_of_head isSpace _ (TrimSpace_data_head s)
  have h2 : TrimRight (TrimSpace s).data = (TrimSpace s).data := by
    have h3 : (TrimSpace s).data.reverse.dropWhile isSpace = (TrimSpace s).data.reverse := by
      apply dropWhile_id_of_head
      intro c hc
      apply TrimSpace_data_getLast s c
      simpa [List.head?_reverse] using hc
    simp [TrimRight, h3]
  show String.mk (TrimRight (TrimLeft (TrimSpace s).data)) = TrimSpace s
  rw [h1, h2]

/-- The retrieval chain asks the retriever first, with the question it was
given. -/
theorem RetrievalQA_Run_first (c : RetrievalQA) (w : World) (turn : Nat) (store : List Document)
    (question : String) (maxTokens : Nat) :
    ∃ evs, (c.Run w turn store question maxTokens).1
      = .retrieve question c.Retriever.NumDocuments :: evs := by
  unfold RetrievalQA.Run
  cases w.Retrieve turn store question c.Retriever.NumDocuments with
  | error err => exact ⟨[], rfl⟩
  | ok docs => exact ⟨_, rfl⟩

/-- The document-stuffing chain calls the Prompt Assembler first, binding the
two slots. -/
theorem StuffDocuments_Call_first (c : StuffDocuments) (w : World) (turn : Nat)
    (docs : List Document) (question : String) (maxTokens : Nat) :
    ∃ evs, (c.Call w turn docs question maxTokens).1
      = .assemble [("context", w.Separator.intercalate (docs.map Document.PageContent)),
          ("question", question)] :: evs := by
  simp only [StuffDocuments.Call]
  split
  · exact ⟨[], rfl⟩
  · exact ⟨_, rfl⟩

theorem Call_withStatus (c : StuffDocuments) (w : World) (code turn : Nat)
    (docs : List Document) (question : String) (maxTokens : Nat) :
    c.Call (w.withStatus code) turn docs question maxTokens
      = c.Call w turn docs question maxTokens := by
  simp only [StuffDocuments.Call, World.withStatus]

theorem Run_withStatus (c : RetrievalQA) (w : World) (code turn : Nat)
    (store : List Document) (question : String) (maxTokens : Nat) :
    c.Run (w.withStatus code) turn store question maxTokens
      = c.Run w turn store question maxTokens := by
  simp only [RetrievalQA.Run, Call_withStatus]
  simp only [World.withStatus]

theorem llm_withStatus (w : World) (code : Nat) : (w.withStatus code).llm = w.llm := rfl

/-- The query loop of rag never looks at the fetch. -/
theorem query_withStatus (w : World) (code : Nat) (store : List Document) :
    ∀ (fuel turn : Nat) (stdin : List Char),
      Rag.query (w.withStatus code) store fuel turn stdin = Rag.query w store fuel turn stdin
  | 0, _, _ => by simp only [Rag.query]
  | fuel + 1, turn, stdin => by
    simp only [Rag.query, query_withStatus w code store fuel, Run_withStatus, llm_withStatus]

/-- The query loop of doc-chat never looks at the fetch. -/
theorem loop_withStatus (w : World) (code : Nat) (docs : List Document) :
    ∀ (fuel turn : Nat) (stdin : List Char),
      DocChat.loop (w.withStatus code) docs fuel turn stdin = DocChat.loop w docs fuel turn stdin
  | 0, _, _ => by simp only [DocChat.loop]
  | fuel + 1, turn, stdin => by
    simp only [DocChat.loop, loop_withStatus w code docs fuel, Call_withStatus, llm_withStatus]

/-! ## Facts about the templates and the turns -/

theorem parse_ragPromptTemplateString :
    ∃ a b c, parseTemplate Rag.ragPromptTemplateString
      = [.text a, .slot "question", .text b, .slot "context", .text c] :=
  ⟨_, _, _, rfl⟩

theorem parse_promptTemplateString :
    parseTemplate DocChat.promptTemplateString
      = [.text "", .slot "context", .text "\nBased on the information above, ",
          .slot "question", .text ""] := by
  rfl

theorem render_question_context (a b c context question : String) :
    render [("context", context), ("question", question)]
        [.text a, .slot "question", .text b, .slot "context", .text c]
      = .ok (a ++ (question ++ (b ++ (context ++ (c ++ ""))))) := by
  rfl

theorem assemble_rag (context question : String) :
    assemble Rag.ragPromptTemplateString [("context", context), ("question", question)]
      = .ok (promptOf Rag.ragPromptTemplateString context question) := by
  obtain ⟨a, b, c, hp⟩ := parse_ragPromptTemplateString
  simp only [promptOf, assemble, hp, render_question_context]

theorem assemble_doc (context question : String) :
    assemble DocChat.promptTemplateString [("context", context), ("question", question)]
      = .ok (context ++ "\nBased on the information above, " ++ question) := by
  rw [assemble, parse_promptTemplateString]
  show Except.ok ("" ++ (context ++ ("\nBased on the information above, "
    ++ (question ++ ("" ++ ""))))) = _
  simp [String.append_assoc]

/-- One turn of the rag query loop, step by step. -/
theorem rag_turn (w : World) (store : List Document) (fuel turn : Nat) (stdin : List Char)
    (line : String) (eof : Bool) (rest : List Char)
    (hr : ReadString '\n' stdin = (line, eof, rest)) :
    Rag.query w store (fuel + 1) turn stdin =
      match w.Retrieve turn store (TrimSpace line) 5 with
      | .error err =>
        ⟨[.stdout "\nEnter your message: ", .readString line eof,
          .retrieve (TrimSpace line) 5, .fatal err], .fatal⟩
      | .ok found =>
        match w.Generate turn
          ⟨promptOf Rag.ragPromptTemplateString (contextOf w found) (TrimSpace line), 3072⟩ with
        | .error err =>
          ⟨[.stdout "\nEnter your message: ", .readString line eof,
            .retrieve (TrimSpace line) 5,
            .assemble [("context", contextOf w found), ("question", TrimSpace line)],
            .generate
              ⟨promptOf Rag.ragPromptTemplateString (contextOf w found) (TrimSpace line), 3072⟩,
            .fatal err], .fatal⟩
        | .ok result =>
          ⟨[.stdout "\nEnter your message: ", .readString line eof,
            .retrieve (TrimSpace line) 5,
            .assemble [("context", contextOf w found), ("question", TrimSpace line)],
            .generate
              ⟨promptOf Rag.ragPromptTemplateString (contextOf w found) (TrimSpace line), 3072⟩,
            .stdout (Println ["[Model response]:", result])]
              ++ (Rag.query w store fuel (turn + 1) rest).trace,
            (Rag.query w store fuel (turn + 1) rest).status⟩ := by
  simp only [Rag.query, hr, RetrievalQA.Run, Rag.retrievalQAChainWithCustomPrompt, NewRetrievalQA,
    NewStuffDocuments, NewLLMChain, Rag.qaPromptSelector, ConditionalPromptSelector.GetPrompt,
    List.find?, Rag.ragPromptTemplate, NewPromptTemplate, StuffDocuments.Call, assemble_rag,
    Rag.numOfResults, Rag.maxTokenCountLimitForTitanTextPremier, contextOf]
  cases w.Retrieve turn store (TrimSpace line) 5 with
  | error err => rfl
  | ok found =>
    simp only
    cases w.Generate turn
      ⟨promptOf Rag.ragPromptTemplateString
        (w.Separator.intercalate (found.map Document.PageContent)) (TrimSpace line), 3072⟩ with
    | error err => rfl
    | ok result => rfl

/-- One turn of the doc-chat loop, step by step. -/
theorem docchat_turn (w : World) (docs : List Document) (fuel turn : Nat) (stdin : List Char)
    (line : String) (eof : Bool) (rest : List Char)
    (hr : ReadString '\n' stdin = (line, eof, rest)) :
    DocChat.loop w docs (fuel + 1) turn stdin =
      match w.Generate turn
        ⟨contextOf w docs ++ "\nBased on the information above, " ++ TrimSpace line, 3072⟩ with
      | .error err =>
        ⟨[.stdout "\nEnter your message: ", .readString line eof,
          .assemble [("context", contextOf w docs), ("question", TrimSpace line)],
          .generate
            ⟨contextOf w docs ++ "\nBased on the information above, " ++ TrimSpace line, 3072⟩,
          .fatal err], .fatal⟩
      | .ok answer =>
        ⟨[.stdout "\nEnter your message: ", .readString line eof,
          .assemble [("context", contextOf w docs), ("question", TrimSpace line)],
          .generate
            ⟨contextOf w docs ++ "\nBased on the information above, " ++ TrimSpace line, 3072⟩,
          .stdout (Println ["[Response from model]:", answer])]
            ++ (DocChat.loop w docs fuel (turn + 1) rest).trace,
          (DocChat.loop w docs fuel (turn + 1) rest).status⟩ := by
  simp only [DocChat.loop, hr, DocChat.docChainWithCustomPrompt, NewStuffDocuments, NewLLMChain,
    DocChat.qaPromptSelector, ConditionalPromptSelector.GetPrompt, List.find?,
    DocChat.ragPromptTemplate, NewPromptTemplate, StuffDocuments.Call, assemble_doc,
    DocChat.maxTokenCountLimitForTitanTextPremier, contextOf]
  cases w.Generate turn
    ⟨w.Separator.intercalate (docs.map Document.PageContent)
      ++ "\nBased on the information above, " ++ TrimSpace line, 3072⟩ with
  | error err => rfl
  | ok answer => rfl

/-- No turn of the rag query loop fetches, loads or adds documents. -/
theorem query_no_load_steps (w : World) (store : List Document) :
    ∀ (fuel turn : Nat) (stdin : List Char),
      (Rag.query w store fuel turn stdin).trace.all (fun e => !e.isLoadStep) = true
  | 0, _, _ => by simp [Rag.query]
  | fuel + 1, turn, stdin => by
    rcases hr : ReadString '\n' stdin with ⟨line, eof, rest⟩
    have ih := query_no_load_steps w store fuel (turn + 1) rest
    rw [rag_turn w store fuel turn stdin line eof rest hr]
    split
    · simp [Event.isLoadStep]
    · split
      · simp [Event.isLoadStep]
      · simp only [List.all_append, ih, Bool.and_true]
        simp [Event.isLoadStep]

/-! ## Facts about the splitter -/

theorem Join_cons_of_ne_nil (a : List Char) (xs : List (List Char)) (sep : List Char)
    (h : xs ≠ []) : Join (a :: xs) sep = a ++ sep ++ Join xs sep := by
  cases xs with
  | nil => exact absurd rfl h
  | cons b rest => rfl

theorem Join_append (sep : List Char) :
    ∀ (xs ys : List (List Char)), xs ≠ [] → ys ≠ [] →
      Join (xs ++ ys) sep = Join xs sep ++ sep ++ Join ys sep
  | [], _, h, _ => absurd rfl h
  | [a], ys, _, hy => by
    simpa [Join] using Join_cons_of_ne_nil a ys sep hy
  | a :: b :: rest, ys, _, hy => by
    have ih := Join_append sep (b :: rest) ys (by simp) hy
    have h1 : Join (a :: b :: rest ++ ys) sep = a ++ sep ++ Join (b :: rest ++ ys) sep :=
      Join_cons_of_ne_nil a (b :: rest ++ ys) sep (by simp)
    have h2 : Join (a :: b :: rest) sep = a ++ sep ++ Join (b :: rest) sep := rfl
    simp only [List.cons_append] at h1 ih ⊢
    rw [h1, ih, h2]
    simp [List.append_assoc]

theorem length_Join_snoc (sep : List Char) (cur : List (List Char)) (x : List Char) :
    ((Join (cur ++ [x]) sep).length : Int)
      = (Join cur sep).length + x.length + (if cur.length ≠ 0 then (sep.length : Int) else 0) := by
  cases cur with
  | nil => simp [Join]
  | cons a rest =>
    rw [Join_append sep (a :: rest) [x] (by simp) (by simp)]
    simp [Join]
    omega

theorem length_Join_le_append (sep : List Char) (xs ys : List (List Char)) :
    (Join xs sep).length ≤ (Join (xs ++ ys) sep).length := by
  cases xs with
  | nil => simp [Join]
  | cons a rest =>
    cases ys with
    | nil => simp
    | cons b more =>
      rw [Join_append sep (a :: rest) (b :: more) (by simp) (by simp)]
      simp only [List.length_append]
      omega

theorem length_le_Join (sep : List Char) :
    ∀ (xs : List (List Char)) (x : List Char), x ∈ xs → x.length ≤ (Join xs sep).length
  | [], _, h => by simp at h
  | [a], x, h => by
    have : x = a := by simpa using h
    subst this
    simp [Join]
  | a :: b :: rest, x, h => by
    have hj : Join (a :: b :: rest) sep = a ++ sep ++ Join (b :: rest) sep := rfl
    rw [hj]
    simp only [List.length_append]
    rcases List.mem_cons.mp h with rfl | h
    · omega
    · have := length_le_Join sep (b :: rest) x h
      omega

theorem length_add_sep_le_Join (sep : List Char) (xs : List (List Char)) (x : List Char)
    (hx : x ∈ xs) (h2 : 2 ≤ xs.length) : x.length + sep.length ≤ (Join xs sep).length := by
  match xs, hx, h2 with
  | a :: b :: rest, hx, _ =>
    have hj : Join (a :: b :: rest) sep = a ++ sep ++ Join (b :: rest) sep := rfl
    rw [hj]
    simp only [List.length_append]
    rcases List.mem_cons.mp hx with rfl | h
    · omega
    · have := length_le_Join sep (b :: rest) x h
      omega

theorem splitAfter_ne_nil (sep : List Char) :
    ∀ (text : List Char) (skip : Nat) (piece : List Char), splitAfter sep text skip piece ≠ []
  | [], _, _ => by simp [splitAfter]
  | _ :: cs, skip + 1, piece => by
    rw [splitAfter]
    exact splitAfter_ne_nil sep cs skip piece
  | c :: cs, 0, piece => by
    rw [splitAfter]
    split
    · simp
    · exact splitAfter_ne_nil sep cs 0 (c :: piece)

theorem Join_splitAfter (sep : List Char) (hsep : sep ≠ []) :
    ∀ (text : List Char) (skip : Nat) (piece : List Char),
      Join (splitAfter sep text skip piece) sep = piece.reverse ++ text.drop skip
  | [], _, _ => by simp [splitAfter, Join]
  | _ :: cs, skip + 1, piece => by
    rw [splitAfter, Join_splitAfter sep hsep cs skip piece]
    rfl
  | c :: cs, 0, piece => by
    rw [splitAfter]
    split
    · rename_i hpre
      rw [Join_cons_of_ne_nil _ _ _ (splitAfter_ne_nil sep cs _ _),
        Join_splitAfter sep hsep cs (sep.length - 1) []]
      have hp : sep <+: c :: cs := List.isPrefixOf_iff_prefix.mp hpre
      obtain ⟨t, ht⟩ := hp
      cases sep with
      | nil => exact absurd rfl hsep
      | cons d sep' =>
        simp only [List.cons_append, List.cons.injEq] at ht
        obtain ⟨rfl, rfl⟩ := ht
        simp
    · rw [Join_splitAfter sep hsep cs 0 (c :: piece)]
      simp

theorem two_le_length_splitAfter (sep : List Char) (hsep : sep ≠ []) :
    ∀ (text : List Char) (piece : List Char), Contains text sep = true →
      2 ≤ (splitAfter sep text 0 piece).length
  | [], _, h => by
    cases sep with
    | nil => exact absurd rfl hsep
    | cons d sep' => simp [Contains] at h
  | c :: cs, piece, h => by
    rw [splitAfter]
    split
    · have := splitAfter_ne_nil sep cs (sep.length - 1) []
      have : 0 < (splitAfter sep cs (sep.length - 1) []).length := List.length_pos.mpr this
      simp only [List.length_cons]
      omega
    · rename_i hpre
      have hc : Contains cs sep = true := by
        simp only [Contains, Bool.or_eq_true] at h
        rcases h with h | h
        · exact absurd h hpre
        · exact h
      exact two_le_length_splitAfter sep hsep cs (c :: piece) hc

theorem Join_Split (text sep : List Char) : Join (Split text sep) sep = text := by
  unfold Split
  split
  · rename_i he
    have hs : sep = [] := by simpa using he
    subst hs
    induction text with
    | nil => rfl
    | cons c cs ih =>
      cases cs with
      | nil => rfl
      | cons d ds =>
        have := Join_cons_of_ne_nil [c] ((d :: ds).map fun c => [c]) [] (by simp)
        simp only [List.map_cons] at this ih ⊢
        rw [this, ih]
        rfl
  · rename_i he
    have hs : sep ≠ [] := by simpa using he
    simpa using Join_splitAfter sep hs text 0 []

theorem mergeLoop_fits (separator : List Char) (chunkSize chunkOverlap : Nat) :
    ∀ (rest docs currentDoc : List (List Char)) (total : Int),
      total = (Join currentDoc separator).length →
      (Join (currentDoc ++ rest) separator).length ≤ chunkSize →
      mergeLoop separator chunkSize chunkOverlap rest docs currentDoc total
        = if joinDocs (currentDoc ++ rest) separator ≠ [] then
            docs ++ [joinDocs (currentDoc ++ rest) separator]
          else docs
  | [], docs, currentDoc, total, _, _ => by simp [mergeLoop]
  | split :: rest, docs, currentDoc, total, htotal, hfit => by
    have hsnoc := length_Join_snoc separator currentDoc split
    have hle := length_Join_le_append separator (currentDoc ++ [split]) rest
    have hcat : currentDoc ++ [split] ++ rest = currentDoc ++ split :: rest := by simp
    rw [hcat] at hle
    have hno : ¬ (total + (split.length : Int)
        + (if currentDoc.length ≠ 0 then (separator.length : Int) else 0) > (chunkSize : Int)
        ∧ currentDoc.length > 0) := by
      intro h
      have h1 := h.1
      rw [htotal, ← hsnoc] at h1
      omega
    have hnew : total + (split.length : Int)
        + (if (currentDoc ++ [split]).length > 1 then (separator.length : Int) else 0)
        = ((Join (currentDoc ++ [split]) separator).length : Int) := by
      rw [hsnoc, htotal]
      by_cases hc : currentDoc.length = 0
      · simp [hc]
      · have : (currentDoc ++ [split]).length > 1 := by
          simp only [List.length_append, List.length_singleton]
          omega
        simp [hc, this]
    have ih := mergeLoop_fits separator chunkSize chunkOverlap rest docs (currentDoc ++ [split])
      _ hnew (by rw [hcat]; exact hfit)
    rw [hcat] at ih
    rw [mergeLoop]
    simp only [hno, if_false]
    exact ih

theorem mergeSplits_fits (splits : List (List Char)) (separator : List Char)
    (chunkSize chunkOverlap : Nat) (hfit : (Join splits separator).length ≤ chunkSize) :
    mergeSplits splits separator chunkSize chunkOverlap
      = if joinDocs splits separator ≠ [] then [joinDocs splits separator] else [] := by
  have h := mergeLoop_fits separator chunkSize chunkOverlap splits [] [] 0 (by simp [Join])
    (by simpa using hfit)
  simpa [mergeSplits] using h

theorem splitLoop_good (chunkSize chunkOverlap : Nat) (separator : List Char) (last : Bool)
    (deeper : List Char → List (List Char)) :
    ∀ (splits finalChunks goodSplits : List (List Char)),
      (∀ split ∈ splits, split.length < chunkSize) →
      splitLoop chunkSize chunkOverlap separator last deeper splits finalChunks goodSplits
        = if (goodSplits ++ splits).length > 0 then
            finalChunks ++ mergeSplits (goodSplits ++ splits) separator chunkSize chunkOverlap
          else finalChunks
  | [], finalChunks, goodSplits, _ => by simp [splitLoop]
  | split :: rest, finalChunks, goodSplits, h => by
    have hs : split.length < chunkSize := h split (List.mem_cons_self _ _)
    have ih := splitLoop_good chunkSize chunkOverlap separator last deeper rest finalChunks
      (goodSplits ++ [split]) (fun s hs => h s (List.mem_cons_of_mem _ hs))
    rw [splitLoop]
    simp only [hs, if_true]
    rw [ih]
    simp

/-- What the splitting loop yields on the pieces of a text that fits one chunk. -/
theorem splitLoop_Split (chunkSize chunkOverlap : Nat) (separator text : List Char) (last : Bool)
    (deeper : List Char → List (List Char)) (hfit : text.length ≤ chunkSize)
    (hshort : ∀ split ∈ Split text separator, split.length < chunkSize) :
    splitLoop chunkSize chunkOverlap separator last deeper (Split text separator) [] []
      = if TrimRight (TrimLeft text) ≠ [] then [TrimRight (TrimLeft text)] else [] := by
  rw [splitLoop_good _ _ _ _ _ _ _ _ hshort]
  have hj := Join_Split text separator
  by_cases hempty : Split text separator = []
  · rw [hempty] at hj ⊢
    have ht : text = [] := by simpa [Join] using hj.symm
    subst ht
    simp [TrimLeft, TrimRight]
  · have hpos : (Split text separator).length > 0 := List.length_pos.mpr hempty
    simp only [List.nil_append, hpos, if_true]
    rw [mergeSplits_fits _ _ _ _ (by rw [hj]; exact hfit)]
    simp only [joinDocs, hj]

theorem short_of_Contains (chunkSize : Nat) (separator text : List Char)
    (hsep : separator ≠ []) (hc : Contains text separator = true)
    (hfit : text.length ≤ chunkSize) :
    ∀ split ∈ Split text separator, split.length < chunkSize := by
  intro split hmem
  have hj := Join_Split text separator
  have h2 : 2 ≤ (Split text separator).length := by
    unfold Split
    have he : separator.isEmpty = false := by
      cases separator with
      | nil => exact absurd rfl hsep
      | cons d sep' => rfl
    simp only [he]
    exact two_le_length_splitAfter separator hsep text [] hc
  have h := length_add_sep_le_Join separator _ split hmem h2
  rw [hj] at h
  have : 0 < separator.length := List.length_pos.mpr hsep
  omega

theorem short_of_empty_separator (chunkSize : Nat) (text : List Char) (hne : chunkSize ≠ 1)
    (hfit : text.length ≤ chunkSize) :
    ∀ split ∈ Split text [], split.length < chunkSize := by
  intro split hmem
  simp only [Split, List.isEmpty_nil, if_true, List.mem_map] at hmem
  obtain ⟨c, hc, rfl⟩ := hmem
  have : 0 < text.length := List.length_pos.mpr (List.ne_nil_of_mem hc)
  simp only [List.length_singleton]
  omega

theorem splitText_fits (chunkSize chunkOverlap : Nat) (text : List Char) (hne : chunkSize ≠ 1)
    (hfit : text.length ≤ chunkSize) :
    splitText chunkSize chunkOverlap defaultSeparators text
      = if TrimRight (TrimLeft text) ≠ [] then [TrimRight (TrimLeft text)] else [] := by
  simp only [defaultSeparators, splitText]
  by_cases h1 : Contains text ['\n', '\n'] = true
  · simp only [h1]
    exact splitLoop_Split _ _ _ _ _ _ hfit (short_of_Contains _ _ _ (by simp) h1 hfit)
  · by_cases h2 : Contains text ['\n'] = true
    · simp only [h1, h2]
      exact splitLoop_Split _ _ _ _ _ _ hfit (short_of_Contains _ _ _ (by simp) h2 hfit)
    · by_cases h3 : Contains text [' '] = true
      · simp only [h1, h2, h3]
        exact splitLoop_Split _ _ _ _ _ _ hfit (short_of_Contains _ _ _ (by simp) h3 hfit)
      · simp only [h1, h2, h3]
        exact splitLoop_Split _ _ _ _ _ _ hfit (short_of_empty_separator _ _ hne hfit)

theorem SplitText_fits (text : String) (chunkSize chunkOverlap : Nat) (hne : chunkSize ≠ 1)
    (hfit : text.length ≤ chunkSize) :
    SplitText chunkSize chunkOverlap text
      = if TrimSpace text = "" then [] else [TrimSpace text] := by
  have h := splitText_fits chunkSize chunkOverlap text.data hne hfit
  have hiff : TrimSpace text = "" ↔ TrimRight (TrimLeft text.data) = [] := by
    constructor
    · intro h; exact congrArg String.data h
    · intro h; exact congrArg String.mk h
  unfold SplitText
  rw [h]
  by_cases he : TrimRight (TrimLeft text.data) = []
  · simp [he, hiff.mpr he]
  · have : ¬ TrimSpace text = "" := fun h => he (hiff.mp h)
    simp only [ne_eq, he, not_false_eq_true, if_true, this, if_false, List.map_cons, List.map_nil]
    rfl

/-! ## Facts about the events of a run -/

theorem isLoadStep_of_isFetch (e : Event) (h : e.isFetch = true) : e.isLoadStep = true := by
  cases e <;> simp_all [Event.isFetch, Event.isLoadStep]

theorem isLoadStep_of_isAdd (e : Event) (h : e.isAdd = true) : e.isLoadStep = true := by
  cases e <;> simp_all [Event.isAdd, Event.isLoadStep]

/-- No turn of the rag query loop fetches. -/
theorem query_no_fetch (w : World) (store : List Document) (fuel turn : Nat)
    (stdin : List Char) : (Rag.query w store fuel turn stdin).trace.filter Event.isFetch = [] := by
  have h := query_no_load_steps w store fuel turn stdin
  simp only [List.all_eq_true] at h
  rw [List.filter_eq_nil_iff]
  intro e he hf
  have := h e he
  simp [isLoadStep_of_isFetch e hf] at this

/-- No turn of the rag query loop adds documents to the store. -/
theorem query_no_add (w : World) (store : List Document) (fuel turn : Nat)
    (stdin : List Char) : (Rag.query w store fuel turn stdin).trace.filter Event.isAdd = [] := by
  have h := query_no_load_steps w store fuel turn stdin
  simp only [List.all_eq_true] at h
  rw [List.filter_eq_nil_iff]
  intro e he hf
  have := h e he
  simp [isLoadStep_of_isAdd e hf] at this

/-! ## The claims -/

/-- C4: in the query loops of rag and doc-chat the question handed to the chain
(the retriever query in rag, the `question` binding in doc-chat) is
`strings.TrimSpace` of the line read; that value is the line with only white
space removed before and after it, it neither begins nor ends with white space
(the newline is white space), and trimming it again changes nothing. -/
theorem question_is_trimmed_line (w : World) (store docs : List Document) (fuel turn : Nat)
    (stdin : List Char) :
    (∃ evs, (Rag.query w store (fuel + 1) turn stdin).trace
        = .stdout "\nEnter your message: "
          :: .readString (ReadString '\n' stdin).1 (ReadString '\n' stdin).2.1
          :: .retrieve (TrimSpace (ReadString '\n' stdin).1) 5 :: evs) ∧
    (∃ context evs, (DocChat.loop w docs (fuel + 1) turn stdin).trace
        = .stdout "\nEnter your message: "
          :: .readString (ReadString '\n' stdin).1 (ReadString '\n' stdin).2.1
          :: .assemble [("context", context), ("question", TrimSpace (ReadString '\n' stdin).1)]
          :: evs) ∧
    (∀ line : String,
      (∃ pre suf, line.data = pre ++ (TrimSpace line).data ++ suf
        ∧ (∀ c ∈ pre, isSpace c = true) ∧ (∀ c ∈ suf, isSpace c = true)) ∧
      (∀ c, (TrimSpace line).data.head? = some c → isSpace c = false) ∧
      (∀ c, (TrimSpace line).data.getLast? = some c → isSpace c = false) ∧
      TrimSpace (TrimSpace line) = TrimSpace line) ∧
    isSpace '\n' = true := by
  refine ⟨?_, ?_, ?_, by decide⟩
  · obtain ⟨evs, he⟩ := RetrievalQA_Run_first
      (Rag.retrievalQAChainWithCustomPrompt w.llm ⟨Rag.numOfResults⟩) w turn store
      (TrimSpace (ReadString '\n' stdin).1) Rag.maxTokenCountLimitForTitanTextPremier
    rcases hr : ReadString '\n' stdin with ⟨line, eof, rest⟩
    rw [hr] at he
    simp only [Rag.query, hr]
    rcases hrun : (Rag.retrievalQAChainWithCustomPrompt w.llm ⟨Rag.numOfResults⟩).Run w turn
      store (TrimSpace line) Rag.maxTokenCountLimitForTitanTextPremier with ⟨evs1, res⟩
    rw [hrun] at he
    simp only at he
    subst he
    cases res with
    | error err => exact ⟨_, rfl⟩
    | ok result => exact ⟨_, rfl⟩
  · obtain ⟨evs, he⟩ := StuffDocuments_Call_first (DocChat.docChainWithCustomPrompt w.llm) w turn
      docs (TrimSpace (ReadString '\n' stdin).1) DocChat.maxTokenCountLimitForTitanTextPremier
    rcases hr : ReadString '\n' stdin with ⟨line, eof, rest⟩
    rw [hr] at he
    simp only [DocChat.loop, hr]
    rcases hrun : (DocChat.docChainWithCustomPrompt w.llm).Call w turn docs (TrimSpace line)
      DocChat.maxTokenCountLimitForTitanTextPremier with ⟨evs1, res⟩
    rw [hrun] at he
    simp only at he
    subst he
    cases res with
    | error err => exact ⟨_, _, rfl⟩
    | ok answer => exact ⟨_, _, rfl⟩
  · intro line
    refine ⟨⟨line.data.takeWhile isSpace, ((TrimLeft line.data).reverse.takeWhile isSpace).reverse,
      ?_, takeWhile_all isSpace _, ?_⟩, TrimSpace_data_head line, TrimSpace_data_getLast line,
      TrimSpace_idem line⟩
    · have h1 := TrimLeft_split line.data
      have h2 := TrimRight_split (TrimLeft line.data)
      show line.data = _ ++ TrimRight (TrimLeft line.data) ++ _
      rw [List.append_assoc, ← h2, ← h1]
    · intro c hc
      exact takeWhile_all isSpace _ c (List.mem_reverse.mp hc)

/-- C7: in basic, when the generation call succeeds with a response holding at
least one candidate, the request sent carried the maximum-output-token bound
3072 and the run prints the content of the first candidate, whatever further
candidates follow it, and returns. -/
theorem basic_prints_first_candidate (w : Basic.World) (resp : ContentResponse)
    (first : ContentChoice) (others : List ContentChoice)
    (hnew : w.New Basic.modelID = .ok ())
    (hgen : w.GenerateContent Basic.request = .ok resp)
    (hfirst : resp.Choices = first :: others) :
    Basic.main w
      = ⟨[.generate ⟨"Explain AI in 100 words or less.", 3072⟩,
          .stdout ("response:\n" ++ " " ++ first.Content ++ "\n")], .exited⟩ := by
  simp only [Basic.main, hnew, hgen, hfirst]
  simp [Basic.request, Basic.maxTokenCountLimitForTitanTextPremier, Println, String.intercalate,
    String.intercalate.go]

theorem basic_prints_first_candidate_witness :
    Basic.main twoCandidates
      = ⟨[.generate ⟨"Explain AI in 100 words or less.", 3072⟩,
          .stdout ("response:\n" ++ " " ++ "first" ++ "\n")], .exited⟩ :=
  basic_prints_first_candidate twoCandidates ⟨[⟨"first"⟩, ⟨"second"⟩]⟩ ⟨"first"⟩ [⟨"second"⟩]
    rfl rfl rfl

/-- C8: for both prompt templates the named placeholders occurring in the text
are exactly `context` and `question`, the declared input variables; so for
every context and every question, assembling with those two bindings succeeds
(no missing binding). -/
theorem templates_bind_context_and_question (context question : String) :
    placeholders Rag.ragPromptTemplateString = ["question", "context"] ∧
    placeholders DocChat.promptTemplateString = ["context", "question"] ∧
    (∀ name, name ∈ placeholders Rag.ragPromptTemplateString
      ↔ name = "context" ∨ name = "question") ∧
    (∀ name, name ∈ placeholders DocChat.promptTemplateString
      ↔ name = "context" ∨ name = "question") ∧
    (∀ name, name ∈ placeholders Rag.ragPromptTemplateString
      ↔ name ∈ Rag.ragPromptTemplate.InputVariables) ∧
    (∀ name, name ∈ placeholders DocChat.promptTemplateString
      ↔ name ∈ DocChat.ragPromptTemplate.InputVariables) ∧
    (∃ out, assemble Rag.ragPromptTemplateString
      [("context", context), ("question", question)] = .ok out) ∧
    assemble DocChat.promptTemplateString [("context", context), ("question", question)]
      = .ok (context ++ "\nBased on the information above, " ++ question) := by
  have hrag : placeholders Rag.ragPromptTemplateString = ["question", "context"] := by rfl
  have hdoc : placeholders DocChat.promptTemplateString = ["context", "question"] := by rfl
  have hvr : Rag.ragPromptTemplate.InputVariables = ["context", "question"] := rfl
  have hvd : DocChat.ragPromptTemplate.InputVariables = ["context", "question"] := rfl
  refine ⟨hrag, hdoc, ?_, ?_, ?_, ?_, ⟨_, assemble_rag context question⟩,
    assemble_doc context question⟩
  · intro name
    rw [hrag]
    simp only [List.mem_cons, List.mem_singleton, List.not_mem_nil, or_false]
    exact Or.comm
  · intro name
    rw [hdoc]
    simp only [List.mem_cons, List.mem_singleton, List.not_mem_nil, or_false]
  · intro name
    rw [hrag, hvr]
    simp only [List.mem_cons, List.mem_singleton, List.not_mem_nil, or_false]
    exact Or.comm
  · intro name
    rw [hdoc, hvd]

/-- C10: the prompt selectors built in `retrievalQAChainWithCustomPrompt` and
`docChainWithCustomPrompt` have no conditional entries, so for every model
handle the selected prompt, and the prompt of the chain built, is the default
custom template: the same template whatever the handle and on every turn. -/
theorem selector_yields_default (llm other : LLM) (retriever : Retriever) :
    Rag.qaPromptSelector.Conditionals = [] ∧
    DocChat.qaPromptSelector.Conditionals = [] ∧
    Rag.qaPromptSelector.GetPrompt llm
      = NewPromptTemplate Rag.ragPromptTemplateString ["context", "question"] ∧
    DocChat.qaPromptSelector.GetPrompt llm
      = NewPromptTemplate DocChat.promptTemplateString ["context", "question"] ∧
    (Rag.retrievalQAChainWithCustomPrompt llm retriever).CombineDocumentsChain.LLMChain.Prompt
      = NewPromptTemplate Rag.ragPromptTemplateString ["context", "question"] ∧
    (DocChat.docChainWithCustomPrompt llm).LLMChain.Prompt
      = NewPromptTemplate DocChat.promptTemplateString ["context", "question"] ∧
    (Rag.retrievalQAChainWithCustomPrompt llm retriever).CombineDocumentsChain.LLMChain.Prompt
      = (Rag.retrievalQAChainWithCustomPrompt other
          retriever).CombineDocumentsChain.LLMChain.Prompt ∧
    (DocChat.docChainWithCustomPrompt llm).LLMChain.Prompt
      = (DocChat.docChainWithCustomPrompt other).LLMChain.Prompt :=
  ⟨rfl, rfl, rfl, rfl, rfl, rfl, rfl, rfl⟩

/-- C1 as stated fails: the source answers `404 Not Found`, yet rag loads the
body, splits it and adds it to the store without a fatal exit, and doc-chat
loads it and binds it to the `context` slot of the prompt of the first turn. -/
theorem non2xx_response_is_loaded :
    notFoundWorld.Get (Rag.source notFoundWorld.env) = .ok ⟨404, "Not Found"⟩ ∧
    notFoundWorld.Get (DocChat.link notFoundWorld.env) = .ok ⟨404, "Not Found"⟩ ∧
    Rag.load notFoundWorld
      = ([.stdout "loading data from https://docs.aws.amazon.com/bedrock/latest/userguide/br-studio.html\n",
          .httpGet "https://docs.aws.amazon.com/bedrock/latest/userguide/br-studio.html",
          .loadHTML "Not Found",
          .stdout "no. of document chunks to be loaded 1\n",
          .addDocuments [⟨"Not Found"⟩],
          .stdout "data successfully loaded into vector store\n"],
        some [⟨"Not Found"⟩]) ∧
    (Rag.main notFoundWorld [] 0).status = .running ∧
    DocChat.main notFoundWorld [] 1
      = ⟨[.httpGet "https://docs.aws.amazon.com/bedrock/latest/userguide/model-ids.html",
          .loadHTML "Not Found",
          .stdout "loaded content from https://docs.aws.amazon.com/bedrock/latest/userguide/model-ids.html\n",
          .stdout "\nEnter your message: ",
          .readString "" true,
          .assemble [("context", "Not Found"), ("question", "")],
          .generate ⟨"Not Found\nBased on the information above, ", 3072⟩,
          .stdout "[Response from model]: answer\n"], .running⟩ :=
  ⟨rfl, rfl, rfl, rfl, rfl⟩

/-- C2 as stated fails: at end of input `ReadString` returns its error, yet the
turn is carried out and a further turn is started. -/
theorem read_error_is_not_fatal :
    ReadString '\n' [] = ("", true, []) ∧
    DocChat.loop notFoundWorld [⟨"Not Found"⟩] 2 0 []
      = ⟨[.stdout "\nEnter your message: ", .readString "" true,
          .assemble [("context", "Not Found"), ("question", "")],
          .generate ⟨"Not Found\nBased on the information above, ", 3072⟩,
          .stdout "[Response from model]: answer\n",
          .stdout "\nEnter your message: ", .readString "" true,
          .assemble [("context", "Not Found"), ("question", "")],
          .generate ⟨"Not Found\nBased on the information above, ", 3072⟩,
          .stdout "[Response from model]: answer\n"], .running⟩ ∧
    (Rag.query notFoundWorld [⟨"Not Found"⟩] 2 0 []).status = .running ∧
    (Rag.query notFoundWorld [⟨"Not Found"⟩] 2 0 []).trace.count (.readString "" true) = 2 :=
  ⟨rfl, rfl, rfl, rfl⟩

/-- C3 as stated fails: the line holding only a newline is empty after
trimming, yet the turn calls the prompt assembler and the generation client
(and, in rag, the retriever) with the empty question. -/
theorem empty_line_is_processed :
    TrimSpace (ReadString '\n' ['\n']).1 = "" ∧
    DocChat.loop notFoundWorld [⟨"Not Found"⟩] 1 0 ['\n']
      = ⟨[.stdout "\nEnter your message: ", .readString "\n" false,
          .assemble [("context", "Not Found"), ("question", "")],
          .generate ⟨"Not Found\nBased on the information above, ", 3072⟩,
          .stdout "[Response from model]: answer\n"], .running⟩ ∧
    (Rag.query notFoundWorld [⟨"Not Found"⟩] 1 0 ['\n']).trace.take 4
      = [.stdout "\nEnter your message: ", .readString "\n" false, .retrieve "" 5,
          .assemble [("context", "Not Found"), ("question", "")]] ∧
    (Rag.query notFoundWorld [⟨"Not Found"⟩] 1 0 ['\n']).trace.length = 6 :=
  ⟨rfl, rfl, rfl, rfl⟩

/-- C1, amended: when the HTTP GET of the source returns an error, rag and
doc-chat each terminate fatally right after the fetch, so nothing is loaded,
split, stored or used in a prompt.  The status of a response is never examined:
a run on responses of any status is the run on the same responses with every
status replaced. -/
theorem fetch_error_is_fatal (w : World) (stdin : List Char) (fuel code : Nat) :
    (∀ err, w.Get (Rag.source w.env) = .error err →
      Rag.main w stdin fuel
        = ⟨[.stdout (Println ["loading data from", Rag.source w.env]),
            .httpGet (Rag.source w.env), .fatal err], .fatal⟩ ∧
      (Rag.load w).2 = none) ∧
    (∀ err, w.Get (DocChat.link w.env) = .error err →
      DocChat.main w stdin fuel = ⟨[.httpGet (DocChat.link w.env), .fatal err], .fatal⟩) ∧
    Rag.main (w.withStatus code) stdin fuel = Rag.main w stdin fuel ∧
    DocChat.main (w.withStatus code) stdin fuel = DocChat.main w stdin fuel := by
  refine ⟨?_, ?_, ?_, ?_⟩
  · intro err hrag
    constructor
    · simp [Rag.main, Rag.load, Rag.getDocs, hrag]
    · simp [Rag.load, Rag.getDocs, hrag]
  · intro err hdoc
    simp [DocChat.main, DocChat.getDocs, hdoc]
  · have hq := query_withStatus w code
    rcases hg : w.Get (Rag.source w.env) with e | resp
    · simp [Rag.main, Rag.load, Rag.getDocs, World.withStatus, hg]
    · rcases hl : w.Load resp.Body with e | docs
      · simp [Rag.main, Rag.load, Rag.getDocs, World.withStatus, hg, hl]
      · rcases ha : w.AddDocuments (SplitDocuments w.ChunkSize w.ChunkOverlap docs) with e | u
        · simp [Rag.main, Rag.load, Rag.getDocs, World.withStatus, hg, hl, ha]
        · have hq2 := hq (w.store ++ SplitDocuments w.ChunkSize w.ChunkOverlap docs) fuel 0 stdin
          simp only [World.withStatus] at hq2
          simp [Rag.main, Rag.load, Rag.getDocs, World.withStatus, hg, hl, ha, hq2]
  · have hq := loop_withStatus w code
    rcases hg : w.Get (DocChat.link w.env) with e | resp
    · simp [DocChat.main, DocChat.getDocs, World.withStatus, hg]
    · rcases hl : w.Load resp.Body with e | docs
      · simp [DocChat.main, DocChat.getDocs, World.withStatus, hg, hl]
      · have hq2 := hq docs fuel 0 stdin
        simp only [World.withStatus] at hq2
        simp [DocChat.main, DocChat.getDocs, World.withStatus, hg, hl, hq2]

theorem fetch_error_is_fatal_witness :
    Rag.main offlineWorld [] 3
      = ⟨[.stdout "loading data from https://docs.aws.amazon.com/bedrock/latest/userguide/br-studio.html\n",
          .httpGet "https://docs.aws.amazon.com/bedrock/latest/userguide/br-studio.html",
          .fatal "Get https://docs.aws.amazon.com/bedrock/latest/userguide/br-studio.html: no route to host"],
          .fatal⟩ ∧
    DocChat.main offlineWorld [] 3
      = ⟨[.httpGet "https://docs.aws.amazon.com/bedrock/latest/userguide/model-ids.html",
          .fatal "Get https://docs.aws.amazon.com/bedrock/latest/userguide/model-ids.html: no route to host"],
          .fatal⟩ ∧
    Rag.main (notFoundWorld.withStatus 200) [] 3 = Rag.main notFoundWorld [] 3 :=
  ⟨((fetch_error_is_fatal offlineWorld [] 3 200).1 _ rfl).1,
    (fetch_error_is_fatal offlineWorld [] 3 200).2.1 _ rfl,
    (fetch_error_is_fatal notFoundWorld [] 3 200).2.2.1⟩

/-- C2, amended: in a query turn of rag or doc-chat, on whatever input, an
error returned by the retriever or by the generation client for the request
sent terminates the process right there, whatever the number of turns allowed.
The error of reading the input line is discarded: the turn is carried out on the
data read, also when the input ended, and when the chain succeeds the next turn
is started. -/
theorem chain_error_is_fatal (w : World) (store docs : List Document) (fuel turn : Nat)
    (stdin : List Char) :
    (∀ err, w.Retrieve turn store (TrimSpace (ReadString '\n' stdin).1) 5 = .error err →
      Rag.query w store (fuel + 1) turn stdin
        = ⟨[.stdout "\nEnter your message: ",
            .readString (ReadString '\n' stdin).1 (ReadString '\n' stdin).2.1,
            .retrieve (TrimSpace (ReadString '\n' stdin).1) 5, .fatal err], .fatal⟩) ∧
    (∀ found err,
      w.Retrieve turn store (TrimSpace (ReadString '\n' stdin).1) 5 = .ok found →
      w.Generate turn ⟨promptOf Rag.ragPromptTemplateString (contextOf w found)
        (TrimSpace (ReadString '\n' stdin).1), 3072⟩ = .error err →
      Rag.query w store (fuel + 1) turn stdin
        = ⟨[.stdout "\nEnter your message: ",
            .readString (ReadString '\n' stdin).1 (ReadString '\n' stdin).2.1,
            .retrieve (TrimSpace (ReadString '\n' stdin).1) 5,
            .assemble [("context", contextOf w found),
              ("question", TrimSpace (ReadString '\n' stdin).1)],
            .generate ⟨promptOf Rag.ragPromptTemplateString (contextOf w found)
              (TrimSpace (ReadString '\n' stdin).1), 3072⟩,
            .fatal err], .fatal⟩) ∧
    (∀ err,
      w.Generate turn ⟨contextOf w docs ++ "\nBased on the information above, "
        ++ TrimSpace (ReadString '\n' stdin).1, 3072⟩ = .error err →
      DocChat.loop w docs (fuel + 1) turn stdin
        = ⟨[.stdout "\nEnter your message: ",
            .readString (ReadString '\n' stdin).1 (ReadString '\n' stdin).2.1,
            .assemble [("context", contextOf w docs),
              ("question", TrimSpace (ReadString '\n' stdin).1)],
            .generate ⟨contextOf w docs ++ "\nBased on the information above, "
              ++ TrimSpace (ReadString '\n' stdin).1, 3072⟩,
            .fatal err], .fatal⟩) ∧
    (∀ found result,
      w.Retrieve turn store (TrimSpace (ReadString '\n' stdin).1) 5 = .ok found →
      w.Generate turn ⟨promptOf Rag.ragPromptTemplateString (contextOf w found)
        (TrimSpace (ReadString '\n' stdin).1), 3072⟩ = .ok result →
      Rag.query w store (fuel + 1) turn stdin
        = ⟨[.stdout "\nEnter your message: ",
            .readString (ReadString '\n' stdin).1 (ReadString '\n' stdin).2.1,
            .retrieve (TrimSpace (ReadString '\n' stdin).1) 5,
            .assemble [("context", contextOf w found),
              ("question", TrimSpace (ReadString '\n' stdin).1)],
            .generate ⟨promptOf Rag.ragPromptTemplateString (contextOf w found)
              (TrimSpace (ReadString '\n' stdin).1), 3072⟩,
            .stdout (Println ["[Model response]:", result])]
              ++ (Rag.query w store fuel (turn + 1) (ReadString '\n' stdin).2.2).trace,
            (Rag.query w store fuel (turn + 1) (ReadString '\n' stdin).2.2).status⟩) ∧
    (∀ answer,
      w.Generate turn ⟨contextOf w docs ++ "\nBased on the information above, "
        ++ TrimSpace (ReadString '\n' stdin).1, 3072⟩ = .ok answer →
      DocChat.loop w docs (fuel + 1) turn stdin
        = ⟨[.stdout "\nEnter your message: ",
            .readString (ReadString '\n' stdin).1 (ReadString '\n' stdin).2.1,
            .assemble [("context", contextOf w docs),
              ("question", TrimSpace (ReadString '\n' stdin).1)],
            .generate ⟨contextOf w docs ++ "\nBased on the information above, "
              ++ TrimSpace (ReadString '\n' stdin).1, 3072⟩,
            .stdout (Println ["[Response from model]:", answer])]
              ++ (DocChat.loop w docs fuel (turn + 1) (ReadString '\n' stdin).2.2).trace,
            (DocChat.loop w docs fuel (turn + 1) (ReadString '\n' stdin).2.2).status⟩) := by
  have hrag := rag_turn w store fuel turn stdin (ReadString '\n' stdin).1
    (ReadString '\n' stdin).2.1 (ReadString '\n' stdin).2.2 rfl
  have hdoc := docchat_turn w docs fuel turn stdin (ReadString '\n' stdin).1
    (ReadString '\n' stdin).2.1 (ReadString '\n' stdin).2.2 rfl
  refine ⟨?_, ?_, ?_, ?_, ?_⟩
  · intro err hret
    rw [hrag, hret]
  · intro found err hret hgen
    rw [hrag, hret]
    simp only [hgen]
  · intro err hgen
    rw [hdoc, hgen]
  · intro found result hret hgen
    rw [hrag, hret]
    simp only [hgen]
  · intro answer hgen
    rw [hdoc, hgen]

theorem chain_error_is_fatal_witness :
    ReadString '\n' ['h', 'i'] = ("hi", true, []) ∧
    Rag.query noRetrievalWorld [] 3 0 ['h', 'i']
      = ⟨[.stdout "\nEnter your message: ", .readString "hi" true, .retrieve "hi" 5,
          .fatal "EmbeddingError"], .fatal⟩ ∧
    DocChat.loop throttledWorld [⟨"Not Found"⟩] 3 0 ['h', 'i']
      = ⟨[.stdout "\nEnter your message: ", .readString "hi" true,
          .assemble [("context", "Not Found"), ("question", "hi")],
          .generate ⟨"Not Found\nBased on the information above, hi", 3072⟩,
          .fatal "ThrottlingException"], .fatal⟩ :=
  ⟨rfl, (chain_error_is_fatal noRetrievalWorld [] [] 2 0 ['h', 'i']).1 _ rfl,
    (chain_error_is_fatal throttledWorld [] [⟨"Not Found"⟩] 2 0 ['h', 'i']).2.2.1 _ rfl⟩

/-- C3, amended: a line that is empty after trimming is processed like any
other line, with the empty question.  Rag calls the retriever with it; an error
of the retriever is fatal, and when the retriever answers, the prompt assembler
and the generation client are called.  Doc-chat calls the prompt assembler and
the generation client.  No turn is a no-op. -/
theorem empty_line_runs_the_chain (w : World) (store docs : List Document) (fuel turn : Nat)
    (stdin : List Char) (hempty : TrimSpace (ReadString '\n' stdin).1 = "") :
    (∃ evs, (Rag.query w store (fuel + 1) turn stdin).trace
      = .stdout "\nEnter your message: "
        :: .readString (ReadString '\n' stdin).1 (ReadString '\n' stdin).2.1
        :: .retrieve "" 5 :: evs) ∧
    (∀ err, w.Retrieve turn store "" 5 = .error err →
      Rag.query w store (fuel + 1) turn stdin
        = ⟨[.stdout "\nEnter your message: ",
            .readString (ReadString '\n' stdin).1 (ReadString '\n' stdin).2.1,
            .retrieve "" 5, .fatal err], .fatal⟩) ∧
    (∀ found, w.Retrieve turn store "" 5 = .ok found →
      ∃ evs, (Rag.query w store (fuel + 1) turn stdin).trace
        = .stdout "\nEnter your message: "
          :: .readString (ReadString '\n' stdin).1 (ReadString '\n' stdin).2.1
          :: .retrieve "" 5
          :: .assemble [("context", contextOf w found), ("question", "")]
          :: .generate ⟨promptOf Rag.ragPromptTemplateString (contextOf w found) "", 3072⟩
          :: evs) ∧
    (∃ evs, (DocChat.loop w docs (fuel + 1) turn stdin).trace
      = .stdout "\nEnter your message: "
        :: .readString (ReadString '\n' stdin).1 (ReadString '\n' stdin).2.1
        :: .assemble [("context", contextOf w docs), ("question", "")]
        :: .generate ⟨contextOf w docs ++ "\nBased on the information above, " ++ "", 3072⟩
        :: evs) := by
  have hrag := rag_turn w store fuel turn stdin (ReadString '\n' stdin).1
    (ReadString '\n' stdin).2.1 (ReadString '\n' stdin).2.2 rfl
  have hdoc := docchat_turn w docs fuel turn stdin (ReadString '\n' stdin).1
    (ReadString '\n' stdin).2.1 (ReadString '\n' stdin).2.2 rfl
  rw [hempty] at hrag hdoc
  refine ⟨?_, ?_, ?_, ?_⟩
  · rw [hrag]
    split
    · exact ⟨_, rfl⟩
    · split
      · exact ⟨_, rfl⟩
      · exact ⟨_, rfl⟩
  · intro err hret
    rw [hrag, hret]
  · intro found hfound
    rw [hrag, hfound]
    simp only
    split
    · exact ⟨_, rfl⟩
    · exact ⟨_, rfl⟩
  · rw [hdoc]
    split
    · exact ⟨_, rfl⟩
    · exact ⟨_, rfl⟩

theorem empty_line_runs_the_chain_witness :
    TrimSpace (ReadString '\n' [' ', '\n']).1 = "" ∧
    ∃ evs, (Rag.query notFoundWorld [] 1 0 [' ', '\n']).trace
      = .stdout "\nEnter your message: "
        :: .readString (ReadString '\n' [' ', '\n']).1 (ReadString '\n' [' ', '\n']).2.1
        :: .retrieve "" 5 :: evs :=
  ⟨rfl, (empty_line_runs_the_chain notFoundWorld [] [] 0 0 [' ', '\n'] rfl).1⟩

/-- C5: every configurable setting resolves to the value of its environment
variable when that value is non-empty and to the hardcoded default when the
variable is unset or empty (SOURCE_URL in rag and doc-chat, AWS_REGION in
basic); the resolved value is never the empty string; the resolved URL is what
rag and doc-chat fetch, and the resolved region is what `init` of basic loads
the configuration with before `main` runs. -/
theorem settings_resolve (w : World) (b : Basic.World) (stdin : List Char) (fuel : Nat)
    (env : Environ) :
    (Rag.source env = match env "SOURCE_URL" with
      | some v => if v = "" then "https://docs.aws.amazon.com/bedrock/latest/userguide/br-studio.html" else v
      | none => "https://docs.aws.amazon.com/bedrock/latest/userguide/br-studio.html") ∧
    (DocChat.link env = match env "SOURCE_URL" with
      | some v => if v = "" then "https://docs.aws.amazon.com/bedrock/latest/userguide/model-ids.html" else v
      | none => "https://docs.aws.amazon.com/bedrock/latest/userguide/model-ids.html") ∧
    (Basic.region env = match env "AWS_REGION" with
      | some v => if v = "" then "us-east-1" else v
      | none => "us-east-1") ∧
    Rag.source env ≠ "" ∧ DocChat.link env ≠ "" ∧ Basic.region env ≠ "" ∧
    (∃ evs, (Rag.main w stdin fuel).trace
      = .stdout (Println ["loading data from", Rag.source w.env])
        :: .httpGet (Rag.source w.env) :: evs) ∧
    (∃ evs, (DocChat.main w stdin fuel).trace = .httpGet (DocChat.link w.env) :: evs) ∧
    (∃ evs, (Basic.program b).trace = .loadConfig (Basic.region b.env) :: evs) ∧
    (∀ err, b.LoadDefaultConfig (Basic.region b.env) = .error err →
      Basic.program b = ⟨[.loadConfig (Basic.region b.env), .fatal err], .fatal⟩) ∧
    (b.LoadDefaultConfig (Basic.region b.env) = .ok () →
      Basic.program b
        = ⟨.loadConfig (Basic.region b.env) :: (Basic.main b).trace, (Basic.main b).status⟩) := by
  have hr : Rag.defaultSourceURL ≠ "" := by simp [Rag.defaultSourceURL]
  have hd : DocChat.defaultSourceURL ≠ "" := by simp [DocChat.defaultSourceURL]
  have hb : Basic.defaultRegion ≠ "" := by simp [Basic.defaultRegion]
  refine ⟨?_, ?_, ?_, ?_, ?_, ?_, ?_, ?_, ?_, ?_, ?_⟩
  · simp only [Rag.source, Getenv, Rag.defaultSourceURL]
    cases env "SOURCE_URL" <;> simp
  · simp only [DocChat.link, Getenv, DocChat.defaultSourceURL]
    cases env "SOURCE_URL" <;> simp
  · simp only [Basic.region, Getenv, Basic.defaultRegion]
    cases env "AWS_REGION" <;> simp
  · simp only [Rag.source]
    split
    · exact hr
    · assumption
  · simp only [DocChat.link]
    split
    · exact hd
    · assumption
  · simp only [Basic.region]
    split
    · exact hb
    · assumption
  · rcases hg : w.Get (Rag.source w.env) with err | resp
    · simp [Rag.main, Rag.load, Rag.getDocs, hg]
    · rcases hl : w.Load resp.Body with err | docs
      · simp [Rag.main, Rag.load, Rag.getDocs, hg, hl]
      · rcases ha : w.AddDocuments (SplitDocuments w.ChunkSize w.ChunkOverlap docs) with err | u
        · simp [Rag.main, Rag.load, Rag.getDocs, hg, hl, ha]
        · simp [Rag.main, Rag.load, Rag.getDocs, hg, hl, ha]
  · rcases hg : w.Get (DocChat.link w.env) with err | resp
    · simp [DocChat.main, DocChat.getDocs, hg]
    · rcases hl : w.Load resp.Body with err | docs
      · simp [DocChat.main, DocChat.getDocs, hg, hl]
      · simp [DocChat.main, DocChat.getDocs, hg, hl]
  · rcases hc : b.LoadDefaultConfig (Basic.region b.env) with err | u
    · simp [Basic.program, Basic.init, hc]
    · simp [Basic.program, Basic.init, hc]
  · intro err hc
    simp [Basic.program, Basic.init, hc]
  · intro hc
    simp [Basic.program, Basic.init, hc]

/-- C6 as stated fails: when `init` cannot connect to the database the process
ends before `main` starts, so in that execution the load phase does not run at
all. -/
theorem startup_failure_skips_the_load :
    Rag.program noDatabaseWorld [] 3 = ⟨[.fatal "connection refused"], .fatal⟩ ∧
    ((Rag.program noDatabaseWorld [] 3).trace.filter Event.isFetch).length = 0 :=
  ⟨rfl, rfl⟩

/-- C6, amended: when a step of `init` fails, rag ends fatally without any step
of the load phase or of a query turn.  When `init` succeeds, `main` runs the
load phase once and before any input is read: an error of the fetch, of the
loader or of the addition to the store ends the run fatally and no turn is run;
otherwise the documents are added once and every turn runs on the store as the
load left it.  The run of `main` fetches exactly once and adds at most once, and
no query turn fetches, loads or adds documents. -/
theorem load_once_before_queries (w : World) (stdin : List Char) (fuel : Nat) :
    (∀ err, (w.LoadDefaultConfig = .error err ∨ w.NewBedrock = .error err
        ∨ w.Connect Rag.pgConnURL = .error err ∨ w.NewStore = .error err
        ∨ w.NewLLM Rag.modelID = .error err) →
      (Rag.program w stdin fuel).status = .fatal ∧
      (Rag.program w stdin fuel).trace.all
        (fun e => !e.isLoadStep && !e.isQueryStep) = true) ∧
    (w.LoadDefaultConfig = .ok () → w.NewBedrock = .ok () → w.Connect Rag.pgConnURL = .ok () →
      w.NewStore = .ok () → w.NewLLM Rag.modelID = .ok () →
      Rag.program w stdin fuel
        = ⟨.stdout "vector store ready\n" :: (Rag.main w stdin fuel).trace,
            (Rag.main w stdin fuel).status⟩) ∧
    (∀ err, w.Get (Rag.source w.env) = .error err →
      Rag.main w stdin fuel
        = ⟨[.stdout (Println ["loading data from", Rag.source w.env]),
            .httpGet (Rag.source w.env), .fatal err], .fatal⟩) ∧
    (∀ resp err, w.Get (Rag.source w.env) = .ok resp → w.Load resp.Body = .error err →
      Rag.main w stdin fuel
        = ⟨[.stdout (Println ["loading data from", Rag.source w.env]),
            .httpGet (Rag.source w.env), .loadHTML resp.Body, .fatal err], .fatal⟩) ∧
    (∀ resp docs err, w.Get (Rag.source w.env) = .ok resp → w.Load resp.Body = .ok docs →
      w.AddDocuments (SplitDocuments w.ChunkSize w.ChunkOverlap docs) = .error err →
      Rag.main w stdin fuel
        = ⟨[.stdout (Println ["loading data from", Rag.source w.env]),
            .httpGet (Rag.source w.env), .loadHTML resp.Body,
            .stdout (Println ["no. of document chunks to be loaded",
              toString (SplitDocuments w.ChunkSize w.ChunkOverlap docs).length]),
            .addDocuments (SplitDocuments w.ChunkSize w.ChunkOverlap docs),
            .fatal err], .fatal⟩) ∧
    (∀ resp docs, w.Get (Rag.source w.env) = .ok resp → w.Load resp.Body = .ok docs →
      w.AddDocuments (SplitDocuments w.ChunkSize w.ChunkOverlap docs) = .ok () →
      Rag.main w stdin fuel
        = ⟨[.stdout (Println ["loading data from", Rag.source w.env]),
            .httpGet (Rag.source w.env), .loadHTML resp.Body,
            .stdout (Println ["no. of document chunks to be loaded",
              toString (SplitDocuments w.ChunkSize w.ChunkOverlap docs).length]),
            .addDocuments (SplitDocuments w.ChunkSize w.ChunkOverlap docs),
            .stdout (Println ["data successfully loaded into vector store"])]
            ++ (Rag.query w (w.store ++ SplitDocuments w.ChunkSize w.ChunkOverlap docs)
                  fuel 0 stdin).trace,
            (Rag.query w (w.store ++ SplitDocuments w.ChunkSize w.ChunkOverlap docs)
              fuel 0 stdin).status⟩) ∧
    ((Rag.main w stdin fuel).trace.filter Event.isFetch).length = 1 ∧
    ((Rag.main w stdin fuel).trace.filter Event.isAdd).length ≤ 1 ∧
    (∀ (store : List Document) (turn : Nat) (input : List Char),
      (Rag.query w store fuel turn input).trace.all (fun e => !e.isLoadStep) = true) := by
  have hget : ∀ err, w.Get (Rag.source w.env) = .error err →
      Rag.main w stdin fuel
        = ⟨[.stdout (Println ["loading data from", Rag.source w.env]),
            .httpGet (Rag.source w.env), .fatal err], .fatal⟩ := by
    intro err hg
    simp [Rag.main, Rag.load, Rag.getDocs, hg]
  have hload : ∀ resp err, w.Get (Rag.source w.env) = .ok resp →
      w.Load resp.Body = .error err →
      Rag.main w stdin fuel
        = ⟨[.stdout (Println ["loading data from", Rag.source w.env]),
            .httpGet (Rag.source w.env), .loadHTML resp.Body, .fatal err], .fatal⟩ := by
    intro resp err hg hl
    simp [Rag.main, Rag.load, Rag.getDocs, hg, hl]
  have hadd : ∀ resp docs err, w.Get (Rag.source w.env) = .ok resp →
      w.Load resp.Body = .ok docs →
      w.AddDocuments (SplitDocuments w.ChunkSize w.ChunkOverlap docs) = .error err →
      Rag.main w stdin fuel
        = ⟨[.stdout (Println ["loading data from", Rag.source w.env]),
            .httpGet (Rag.source w.env), .loadHTML resp.Body,
            .stdout (Println ["no. of document chunks to be loaded",
              toString (SplitDocuments w.ChunkSize w.ChunkOverlap docs).length]),
            .addDocuments (SplitDocuments w.ChunkSize w.ChunkOverlap docs),
            .fatal err], .fatal⟩ := by
    intro resp docs err hg hl ha
    simp [Rag.main, Rag.load, Rag.getDocs, hg, hl, ha]
  have hok : ∀ resp docs, w.Get (Rag.source w.env) = .ok resp → w.Load resp.Body = .ok docs →
      w.AddDocuments (SplitDocuments w.ChunkSize w.ChunkOverlap docs) = .ok () →
      Rag.main w stdin fuel
        = ⟨[.stdout (Println ["loading data from", Rag.source w.env]),
            .httpGet (Rag.source w.env), .loadHTML resp.Body,
            .stdout (Println ["no. of document chunks to be loaded",
              toString (SplitDocuments w.ChunkSize w.ChunkOverlap docs).length]),
            .addDocuments (SplitDocuments w.ChunkSize w.ChunkOverlap docs),
            .stdout (Println ["data successfully loaded into vector store"])]
            ++ (Rag.query w (w.store ++ SplitDocuments w.ChunkSize w.ChunkOverlap docs)
                  fuel 0 stdin).trace,
            (Rag.query w (w.store ++ SplitDocuments w.ChunkSize w.ChunkOverlap docs)
              fuel 0 stdin).status⟩ := by
    intro resp docs hg hl ha
    simp [Rag.main, Rag.load, Rag.getDocs, hg, hl, ha]
  refine ⟨?_, ?_, hget, hload, hadd, hok, ?_, ?_, ?_⟩
  · intro err hfail
    rcases h1 : w.LoadDefaultConfig with e1 | u1
    · simp [Rag.program, Rag.init, h1, Event.isLoadStep, Event.isQueryStep]
    · rcases h2 : w.NewBedrock with e2 | u2
      · simp [Rag.program, Rag.init, h1, h2, Event.isLoadStep, Event.isQueryStep]
      · rcases h3 : w.Connect Rag.pgConnURL with e3 | u3
        · simp [Rag.program, Rag.init, h1, h2, h3, Event.isLoadStep, Event.isQueryStep]
        · rcases h4 : w.NewStore with e4 | u4
          · simp [Rag.program, Rag.init, h1, h2, h3, h4, Event.isLoadStep, Event.isQueryStep]
          · rcases h5 : w.NewLLM Rag.modelID with e5 | u5
            · simp [Rag.program, Rag.init, h1, h2, h3, h4, h5, Event.isLoadStep,
                Event.isQueryStep]
            · rw [h1, h2, h3, h4, h5] at hfail
              simp at hfail
  · intro h1 h2 h3 h4 h5
    simp [Rag.program, Rag.init, h1, h2, h3, h4, h5, Println, String.intercalate,
      String.intercalate.go]
  · rcases hg : w.Get (Rag.source w.env) with e | resp
    · rw [hget e hg]
      simp [Event.isFetch]
    · rcases hl : w.Load resp.Body with e | docs
      · rw [hload resp e hg hl]
        simp [Event.isFetch]
      · rcases ha : w.AddDocuments (SplitDocuments w.ChunkSize w.ChunkOverlap docs) with e | u
        · rw [hadd resp docs e hg hl ha]
          simp [Event.isFetch]
        · rw [hok resp docs hg hl ha]
          simp [Event.isFetch, List.filter_append, query_no_fetch]
  · rcases hg : w.Get (Rag.source w.env) with e | resp
    · rw [hget e hg]
      simp [Event.isAdd]
    · rcases hl : w.Load resp.Body with e | docs
      · rw [hload resp e hg hl]
        simp [Event.isAdd]
      · rcases ha : w.AddDocuments (SplitDocuments w.ChunkSize w.ChunkOverlap docs) with e | u
        · rw [hadd resp docs e hg hl ha]
          simp [Event.isAdd]
        · rw [hok resp docs hg hl ha]
          simp [Event.isAdd, List.filter_append, query_no_add]
  · intro store turn input
    exact query_no_load_steps w store fuel turn input

theorem load_once_before_queries_witness :
    Rag.program notFoundWorld [] 0
      = ⟨.stdout "vector store ready\n" :: (Rag.main notFoundWorld [] 0).trace,
          (Rag.main notFoundWorld [] 0).status⟩ ∧
    ((Rag.main notFoundWorld [] 0).trace.filter Event.isFetch).length = 1 :=
  ⟨(load_once_before_queries notFoundWorld [] 0).2.1 rfl rfl rfl rfl rfl,
    (load_once_before_queries notFoundWorld [] 0).2.2.2.2.2.2.1⟩

/-- C9 as stated fails: the empty text is no longer than the chunk size and
yields no chunk at all (rag then loads 0 chunks from an empty page), and a text
with white space around it yields one chunk that is not the text but the text
trimmed. -/
theorem short_text_is_trimmed_or_dropped :
    "".length ≤ 512 ∧ SplitText 512 100 "" = [] ∧
    " Not Found ".length ≤ 512 ∧ SplitText 512 100 " Not Found " = ["Not Found"] ∧
    Rag.load emptyPageWorld
      = ([.stdout "loading data from https://docs.aws.amazon.com/bedrock/latest/userguide/br-studio.html\n",
          .httpGet "https://docs.aws.amazon.com/bedrock/latest/userguide/br-studio.html",
          .loadHTML "",
          .stdout "no. of document chunks to be loaded 0\n",
          .addDocuments [],
          .stdout "data successfully loaded into vector store\n"],
        some []) :=
  ⟨by decide, rfl, by decide, rfl, rfl⟩

/-- C9, amended: for every text no longer than the maximum chunk size (of any
size but 1), the chunker of the rag load phase yields at most one chunk: none
when the text is empty or all white space, and otherwise exactly one, equal to
the text with its leading and trailing white space removed; so does the
splitting of a loaded document holding the text. -/
theorem chunker_short_text (text : String) (chunkSize chunkOverlap : Nat)
    (hsize : chunkSize ≠ 1) (hshort : text.length ≤ chunkSize) :
    SplitText chunkSize chunkOverlap text
      = (if TrimSpace text = "" then [] else [TrimSpace text]) ∧
    SplitDocuments chunkSize chunkOverlap [⟨text⟩]
      = (if TrimSpace text = "" then [] else [⟨TrimSpace text⟩]) := by
  have h := SplitText_fits text chunkSize chunkOverlap hsize hshort
  refine ⟨h, ?_⟩
  simp only [SplitDocuments, List.flatMap_cons, List.flatMap_nil, List.append_nil, h]
  split <;> rfl

theorem chunker_short_text_witness :
    " Not Found ".length ≤ 512 ∧
    SplitText 512 100 " Not Found "
      = (if TrimSpace " Not Found " = "" then [] else [TrimSpace " Not Found "]) :=
  ⟨by decide, (chunker_short_text " Not Found " 512 100 (by decide) (by decide)).1⟩

end Titan
